import Mathlib

/-!
# Verification of the berget.me conversational-agent core

Shallow embedding, in Lean 4, of the analysis pipeline and the pivot-indexed
vector memory store of the berget.me repository, together with proofs and
refutations of the specification claims about them.

Conventions used throughout:

* JavaScript numbers are modelled two ways.  Where degenerate IEEE values
  (`NaN`, `±Infinity`) are semantically relevant (the cosine-similarity
  numeric-semantics claims) we use the type `FNum` below, an extended-rational
  model of IEEE doubles that tracks `NaN` and the two infinities explicitly
  and implements the JavaScript propagation rules of `+`, `*`, `/`,
  `Math.sqrt`, comparisons, `Math.min` and `Math.max`.  Elsewhere (entries,
  importances, timestamps, similarity post-processing) numbers are modelled
  as exact rationals `ℚ` — the idealisation that no overflow or rounding
  occurs in ordinary finite arithmetic.
* `Math.sqrt` on finite non-negative arguments is an opaque host primitive
  (like the Embedding Provider); models are parameterised by a function
  `sqrtFn : ℚ → ℚ` standing for its finite behaviour.  `ratSqrt` below is a
  concrete stand-in used for closed evaluations; it is exact on
  perfect-square rationals, which is all the closed statements use.
* `Array.prototype.sort(cmp)` (a stable sort) is modelled by Mathlib's
  stable `List.insertionSort r` with `r a b` meaning `cmp(a,b) ≤ 0`.
* Fallible awaited calls (the Embedding Provider) are modelled with
  `Except`; a rejected promise is `Except.error`.
-/

/-! ## An extended-rational model of JavaScript numbers -/

/-- A JavaScript (IEEE-754 double) number, modelled as a rational extended
with `NaN` and the two infinities.  Negative zero is not distinguished from
zero and finite arithmetic is exact; only the claims about degenerate values
rely on this type. -/
inductive FNum where
  | nan : FNum
  | inf : FNum
  | ninf : FNum
  | fin (q : ℚ) : FNum
deriving DecidableEq, Repr

namespace FNum

/-- JavaScript `+` on numbers. -/
def add : FNum → FNum → FNum
  | nan, _ => nan
  | _, nan => nan
  | inf, ninf => nan
  | ninf, inf => nan
  | inf, _ => inf
  | _, inf => inf
  | ninf, _ => ninf
  | _, ninf => ninf
  | fin q, fin r => fin (q + r)

/-- JavaScript `*` on numbers. -/
def mul : FNum → FNum → FNum
  | nan, _ => nan
  | _, nan => nan
  | inf, inf => inf
  | inf, ninf => ninf
  | ninf, inf => ninf
  | ninf, ninf => inf
  | inf, fin q => if q = 0 then nan else if 0 < q then inf else ninf
  | fin q, inf => if q = 0 then nan else if 0 < q then inf else ninf
  | ninf, fin q => if q = 0 then nan else if 0 < q then ninf else inf
  | fin q, ninf => if q = 0 then nan else if 0 < q then ninf else inf
  | fin q, fin r => fin (q * r)

/-- JavaScript `-` on numbers. -/
def sub : FNum → FNum → FNum
  | nan, _ => nan
  | _, nan => nan
  | inf, inf => nan
  | ninf, ninf => nan
  | inf, _ => inf
  | ninf, _ => ninf
  | _, inf => ninf
  | _, ninf => inf
  | fin q, fin r => fin (q - r)

/-- JavaScript `/` on numbers. -/
def div : FNum → FNum → FNum
  | nan, _ => nan
  | _, nan => nan
  | inf, inf => nan
  | inf, ninf => nan
  | ninf, inf => nan
  | ninf, ninf => nan
  | fin _, inf => fin 0
  | fin _, ninf => fin 0
  | inf, fin q => if 0 ≤ q then inf else ninf
  | ninf, fin q => if 0 ≤ q then ninf else inf
  | fin q, fin r =>
    if r = 0 then (if q = 0 then nan else if 0 < q then inf else ninf)
    else fin (q / r)

/-- JavaScript `<` on numbers (`NaN` compares false with everything). -/
def ltb : FNum → FNum → Bool
  | nan, _ => false
  | _, nan => false
  | ninf, ninf => false
  | ninf, _ => true
  | _, ninf => false
  | inf, inf => false
  | fin _, inf => true
  | inf, _ => false
  | fin q, fin r => decide (q < r)

/-- JavaScript `isNaN`. -/
def isNaN : FNum → Bool
  | nan => true
  | _ => false

/-- JavaScript `Math.min` of two numbers (`NaN` wins; `-0` not modelled). -/
def minJ (a b : FNum) : FNum :=
  if a.isNaN || b.isNaN then nan else if a.ltb b then a else b

/-- JavaScript `Math.max` of two numbers (`NaN` wins; `-0` not modelled). -/
def maxJ (a b : FNum) : FNum :=
  if a.isNaN || b.isNaN then nan else if a.ltb b then b else a

/-- JavaScript `Math.sqrt`, parameterised by the finite behaviour `sqrtFn`
of the host primitive: `Math.sqrt(NaN) = NaN`, `Math.sqrt(∞) = ∞`,
`Math.sqrt(x) = NaN` for `x < 0`. -/
def sqrtE (sqrtFn : ℚ → ℚ) : FNum → FNum
  | nan => nan
  | inf => inf
  | ninf => nan
  | fin q => if q < 0 then nan else fin (sqrtFn q)

end FNum

/-- Largest `k ≤ fuel` with `k * k ≤ n` (structural recursion so that the
kernel can evaluate it inside `decide`). -/
def natSqrtAux : ℕ → ℕ → ℕ
  | 0, _ => 0
  | k + 1, n => if (k + 1) * (k + 1) ≤ n then k + 1 else natSqrtAux k n

/-- Kernel-evaluable integer square root. -/
def natSqrt (n : ℕ) : ℕ := natSqrtAux n n

/-- A concrete, computable stand-in for the finite behaviour of `Math.sqrt`:
exact on rationals whose numerator and denominator are perfect squares
(in particular on squares of naturals), a floor-ish approximation elsewhere.
Closed evaluations below only apply it to perfect squares, where it agrees
exactly with `Math.sqrt`. -/
def ratSqrt (q : ℚ) : ℚ :=
  if q < 0 then 0 else (natSqrt q.num.toNat : ℚ) / (natSqrt q.den : ℚ)

example : ratSqrt 1 = 1 := by norm_num [ratSqrt, natSqrt, natSqrtAux]
example : ratSqrt 4 = 2 := by norm_num [ratSqrt, natSqrt, natSqrtAux]

/-! ## Data model: entry types, metadata, entries

These mirror the TypeScript interfaces `VectorEntry` / `VectorSearchResult`
of `src/services/vectorDatabase.ts` and `MemoryEntry` / `MemorySearchResult`
of `src/services/vectorMemory.ts`.  `Date` values are modelled by their
epoch-milliseconds timestamp as a rational. -/

/-- `VectorEntry['metadata']['type']` — the storage-layer type enum. -/
inductive VectorType where
  | user_message : VectorType
  | assistant_message : VectorType
  | conversation_context : VectorType
  | memory : VectorType
deriving DecidableEq, Repr

/-- The `metadata` record of a `VectorEntry`. -/
structure VectorMetadata where
  timestamp : ℚ
  type : VectorType
  importance : ℚ
  tags : List String
  context : Option String
deriving DecidableEq, Repr

/-- A stored vector entry, including the five fixed-width string index
fields `idx0`–`idx4`. -/
structure VectorEntry where
  id : String
  content : String
  embedding : List ℚ
  metadata : VectorMetadata
  idx0 : String
  idx1 : String
  idx2 : String
  idx3 : String
  idx4 : String
deriving DecidableEq, Repr

/-- A search result: entry plus its exact similarity and distance to the
query.  `distance` is an `FNum` because `euclideanDistance` yields
`Infinity` on dimension mismatch; `similarity` stays rational because
`cosineSimilarity` on finite (rational) coordinates is finite. -/
structure VectorSearchResult where
  entry : VectorEntry
  similarity : ℚ
  distance : FNum
deriving DecidableEq, Repr

/-- `MemoryEntry['metadata']['type']` — the API-layer memory type enum. -/
inductive MemoryType where
  | conversation : MemoryType
  | reflection : MemoryType
  | insight : MemoryType
  | preference : MemoryType
  | fact : MemoryType
deriving DecidableEq, Repr

/-! ## VectorDatabase: similarity, distance, index encoding

Models of the private static helpers of `class VectorDatabase`
(`src/services/vectorDatabase.ts`).  All stored coordinates are rational
(finite); the IEEE-degenerate behaviour of `cosineSimilarity` is modelled
separately on `FNum` in the `FV` namespace below. -/

namespace VectorDatabase

/-- `cosineSimilarity(a, b)` of `src/services/vectorDatabase.ts` on finite
(rational) coordinates: `0` on length mismatch, `dot / (√normA * √normB)`
when the magnitude is positive, else `0`.  `sqrtFn` is the finite behaviour
of `Math.sqrt`. -/
def cosineSimilarity (sqrtFn : ℚ → ℚ) (a b : List ℚ) : ℚ :=
  if a.length ≠ b.length then 0
  else
    let dotProduct := ((a.zip b).map (fun p => p.1 * p.2)).sum
    let normA := (a.map (fun x => x * x)).sum
    let normB := (b.map (fun x => x * x)).sum
    let magnitude := sqrtFn normA * sqrtFn normB
    if 0 < magnitude then dotProduct / magnitude else 0

/-- `euclideanDistance(a, b)`: `Infinity` on length mismatch, otherwise
`√(Σ (aᵢ - bᵢ)²)`. -/
def euclideanDistance (sqrtFn : ℚ → ℚ) (a b : List ℚ) : FNum :=
  if a.length ≠ b.length then .inf
  else .fin (sqrtFn (((a.zip b).map (fun p => (p.1 - p.2) * (p.1 - p.2))).sum))

end VectorDatabase

/-! ## The fixed-width index encoding (`indexNrToString`)

`indexNrToString(nr) = nr.toFixed(6).padStart(10, '0')`.  `toFixed(6)` is
modelled as decimal rendering of the argument rounded half-up to six
decimal places (the idealisation of IEEE `toFixed` under exact arithmetic);
`padStart` prepends `'0'` characters up to length 10. -/

/-- `s.padStart(n, '0')`. -/
def padStartZeros (n : ℕ) (s : String) : String :=
  String.mk (List.replicate (n - s.length) '0' ++ s.data)

/-- MSB-first rendering of `m` as exactly `k` decimal digit characters
(correct for `m < 10^k`). -/
def zeroPadDigits : ℕ → ℕ → List Char
  | 0, _ => []
  | k + 1, m => Nat.digitChar (m / 10 ^ k) :: zeroPadDigits k (m % 10 ^ k)

/-- Minimal-length MSB-first decimal digit characters of `n` (the rendering
`String(n)` uses). -/
def natRepr (n : ℕ) : List Char :=
  if _h : n < 10 then [Nat.digitChar n]
  else natRepr (n / 10) ++ [Nat.digitChar (n % 10)]
decreasing_by exact Nat.div_lt_self (by omega) (by omega)

/-- Decimal string `"<int part>.<6 fraction digits>"` of the scaled value
`n` (in millionths). -/
def fixedOfNat (n : ℕ) : String :=
  String.mk (natRepr (n / 1000000) ++ '.' :: zeroPadDigits 6 (n % 1000000))

/-- `nr.toFixed(6)` under exact arithmetic: round `nr` half-up to
millionths and render with six decimals.  (IEEE `toFixed` rounds the
binary double to nearest; on the exact values used in the statements below
the two agree.  The `"-0.000000"` corner of negative arguments is not
modelled; all encoded values in the store are distances, hence `≥ 0`.) -/
def toFixed6 (nr : ℚ) : String :=
  let n : ℤ := ⌊nr * 1000000 + 1 / 2⌋
  if n < 0 then String.mk ('-' :: (fixedOfNat n.natAbs).data) else fixedOfNat n.toNat

/-- `indexNrToString(nr)` of `src/services/vectorDatabase.ts`:
`nr.toFixed(6).padStart(10, '0')`. -/
def indexNrToString (nr : ℚ) : String :=
  padStartZeros 10 (toFixed6 nr)

/-- `indexNrToString` lifted to possibly-degenerate numbers: JavaScript
renders `Infinity.toFixed(6) = "Infinity"` and `NaN.toFixed(6) = "NaN"`,
then pads. -/
def indexNrToStringF : FNum → String
  | .fin q => indexNrToString q
  | .inf => padStartZeros 10 "Infinity"
  | .ninf => padStartZeros 10 "-Infinity"
  | .nan => padStartZeros 10 "NaN"

/-! ## VectorDatabase: search and insert -/

namespace VectorDatabase

/-- The capacity constant `MAX_ENTRIES`. -/
def MAX_ENTRIES : ℕ := 2000

/-- The pivot-window half-width constant `indexDistance` of `searchSimilar`. -/
def indexDistance : ℚ := 3 / 1000

/-- Field access `entry[`idx${i}`]` for `i < 5` (`getD`: out-of-range `i`
does not occur — the loop runs `i = 0..4`). -/
def idxField (e : VectorEntry) : ℕ → String
  | 0 => e.idx0
  | 1 => e.idx1
  | 2 => e.idx2
  | 3 => e.idx3
  | 4 => e.idx4
  | _ => ""

/-- One pivot's candidate test in `searchSimilar`: the entry passes the
optional type filter and its `idx${i}` string lies in the inclusive string
range derived from the query's distance to pivot `i`.  (JavaScript compares
the strings with `>=` / `<=`, i.e. lexicographically by code unit, which on
these ASCII strings coincides with Lean's `String` order.) -/
def inPivotWindow (sqrtFn : ℚ → ℚ) (indexVectors : List (List ℚ))
    (queryEmbedding : List ℚ) (e : VectorEntry) (i : ℕ) : Bool :=
  let distanceToIndex := euclideanDistance sqrtFn (indexVectors.getD i []) queryEmbedding
  let range := distanceToIndex.mul (.fin indexDistance)
  let minRange := indexNrToStringF (distanceToIndex.sub range)
  let maxRange := indexNrToStringF (distanceToIndex.add range)
  decide (minRange ≤ idxField e i) && decide (idxField e i ≤ maxRange)

/-- The type-filter test applied inside both filters of `searchSimilar`
(`!typeFilter || entry.metadata.type === typeFilter`). -/
def passesTypeFilter (typeFilter : Option VectorType) (e : VectorEntry) : Bool :=
  match typeFilter with
  | none => true
  | some t => decide (e.metadata.type = t)

/-- The candidate set of `searchSimilar`: entries added to the `Set` by at
least one of the five pivot loops.  (The JavaScript `Set` deduplicates by
object identity and iterates in pivot-major insertion order; as a
collection of entries it equals this filter of the entry list, and the
final ordering below is fixed by the similarity sort.) -/
def searchCandidates (sqrtFn : ℚ → ℚ) (indexVectors : List (List ℚ))
    (queryEmbedding : List ℚ) (typeFilter : Option VectorType)
    (entries : List VectorEntry) : List VectorEntry :=
  entries.filter (fun e =>
    passesTypeFilter typeFilter e &&
      (List.range 5).any (inPivotWindow sqrtFn indexVectors queryEmbedding e))

/-- The result record built for each candidate. -/
def mkSearchResult (sqrtFn : ℚ → ℚ) (queryEmbedding : List ℚ)
    (e : VectorEntry) : VectorSearchResult :=
  { entry := e
    similarity := cosineSimilarity sqrtFn queryEmbedding e.embedding
    distance := euclideanDistance sqrtFn queryEmbedding e.embedding }

/-- The ordering used by `.sort((a, b) => b.similarity - a.similarity)`:
`simGE a b` holds when the comparator puts `a` no later than `b`. -/
def simGE (a b : VectorSearchResult) : Prop :=
  b.similarity ≤ a.similarity

instance : DecidableRel simGE := fun a b =>
  inferInstanceAs (Decidable (b.similarity ≤ a.similarity))

instance : IsTotal VectorSearchResult simGE :=
  ⟨fun a b => le_total b.similarity a.similarity⟩

instance : IsTrans VectorSearchResult simGE :=
  ⟨fun _ _ _ hab hbc => le_trans hbc hab⟩

/-- `searchSimilar` after the query embedding has been obtained: pivot
candidate selection, exact similarity/distance on the candidates only,
`minSimilarity` filter, similarity-descending sort, truncation to `limit`.
(`Array.prototype.sort` is stable; `List.insertionSort` is the matching
stable sort.) -/
def searchSimilarCore (sqrtFn : ℚ → ℚ) (indexVectors : List (List ℚ))
    (entries : List VectorEntry) (queryEmbedding : List ℚ) (limit : ℕ)
    (minSimilarity : ℚ) (typeFilter : Option VectorType) :
    List VectorSearchResult :=
  let candidates := searchCandidates sqrtFn indexVectors queryEmbedding typeFilter entries
  (((candidates.map (mkSearchResult sqrtFn queryEmbedding)).filter
      (fun r => minSimilarity ≤ r.similarity)).insertionSort simGE).take limit

/-- `searchSimilar(query, …)` including the awaited Embedding Provider call:
the whole body is wrapped in `try … catch { return [] }`, so a provider
failure resolves with the empty list instead of propagating. -/
def searchSimilar (embed : String → Except String (List ℚ)) (sqrtFn : ℚ → ℚ)
    (indexVectors : List (List ℚ)) (entries : List VectorEntry)
    (query : String) (limit : ℕ) (minSimilarity : ℚ)
    (typeFilter : Option VectorType) : Except String (List VectorSearchResult) :=
  match embed query with
  | .error _ => .ok []
  | .ok queryEmbedding =>
    .ok (searchSimilarCore sqrtFn indexVectors entries queryEmbedding limit
      minSimilarity typeFilter)

/-- The eviction comparator of `saveEntry`:
`importanceDiff = b.importance - a.importance`;
if `|importanceDiff| > 0.1` the comparator returns `importanceDiff`, else
`b.timestamp - a.timestamp`.  `evictLE a b` holds when the comparator value
is `≤ 0`, i.e. when the sort keeps `a` no later than `b`. -/
def evictLE (a b : VectorEntry) : Prop :=
  if 1 / 10 < |b.metadata.importance - a.metadata.importance| then
    b.metadata.importance - a.metadata.importance ≤ 0
  else b.metadata.timestamp - a.metadata.timestamp ≤ 0

instance : DecidableRel evictLE := fun _ _ => by
  unfold evictLE; infer_instance

/-- The capacity pruning step of `saveEntry`: if the entry count exceeds
`MAX_ENTRIES`, sort with the eviction comparator and truncate
(`entries.splice(this.MAX_ENTRIES)`). -/
def pruneEntries (entries : List VectorEntry) : List VectorEntry :=
  if MAX_ENTRIES < entries.length then
    (entries.insertionSort evictLE).take MAX_ENTRIES
  else entries

/-- The store update performed by `saveEntry`: push the new entry, then
prune to capacity. -/
def saveEntryStore (entries : List VectorEntry) (e : VectorEntry) :
    List VectorEntry :=
  pruneEntries (entries ++ [e])

/-- The importance clamp of `saveEntry`:
`Math.max(0, Math.min(1, importance))`. -/
def clampImportance (importance : ℚ) : ℚ :=
  max 0 (min 1 importance)

/-- The `VectorEntry` built by `saveEntry` (`id` and the timestamp `now`
come from `Date.now()` / `Math.random()` and are passed as parameters). -/
def mkEntry (sqrtFn : ℚ → ℚ) (indexVectors : List (List ℚ)) (id : String)
    (now : ℚ) (content : String) (type : VectorType) (importance : ℚ)
    (tags : List String) (context : Option String) (embedding : List ℚ) :
    VectorEntry :=
  { id := id
    content := content
    embedding := embedding
    metadata :=
      { timestamp := now
        type := type
        importance := clampImportance importance
        tags := tags
        context := context }
    idx0 := indexNrToStringF (euclideanDistance sqrtFn (indexVectors.getD 0 []) embedding)
    idx1 := indexNrToStringF (euclideanDistance sqrtFn (indexVectors.getD 1 []) embedding)
    idx2 := indexNrToStringF (euclideanDistance sqrtFn (indexVectors.getD 2 []) embedding)
    idx3 := indexNrToStringF (euclideanDistance sqrtFn (indexVectors.getD 3 []) embedding)
    idx4 := indexNrToStringF (euclideanDistance sqrtFn (indexVectors.getD 4 []) embedding) }

/-- `saveEntry(content, type, importance, tags, context)` including the
awaited Embedding Provider call: the `catch` block rethrows
(`throw error`), so a provider failure propagates to the caller.  Returns
the new entry's id and the updated store. -/
def saveEntry (embed : String → Except String (List ℚ)) (sqrtFn : ℚ → ℚ)
    (indexVectors : List (List ℚ)) (entries : List VectorEntry) (id : String)
    (now : ℚ) (content : String) (type : VectorType) (importance : ℚ)
    (tags : List String) (context : Option String) :
    Except String (String × List VectorEntry) := do
  let embedding ← embed content
  let entry := mkEntry sqrtFn indexVectors id now content type importance tags
    context embedding
  pure (entry.id, saveEntryStore entries entry)

end VectorDatabase

/-! ## VectorMemoryService (`src/services/vectorMemory.ts`)

The API layer over `VectorDatabase`.  At runtime the `type` field of a
converted `MemoryEntry` is just a string (the `as any` cast lets the
storage-level string `"memory"` through unchanged, although it is not a
member of the `MemoryEntry` type union), so the model renders it as
`String`. -/

/-- The runtime string of a storage-level type tag. -/
def vectorTypeString : VectorType → String
  | .user_message => "user_message"
  | .assistant_message => "assistant_message"
  | .conversation_context => "conversation_context"
  | .memory => "memory"

/-- `MemoryEntry` as produced by `vectorEntryToMemoryEntry` (no index
fields; `type` is the runtime string, see above). -/
structure MemoryEntry where
  id : String
  content : String
  embedding : List ℚ
  timestamp : ℚ
  type : String
  importance : ℚ
  tags : List String
  context : Option String
deriving DecidableEq, Repr

/-- A memory search result (entry plus similarity). -/
structure MemorySearchResult where
  entry : MemoryEntry
  similarity : ℚ
deriving DecidableEq, Repr

namespace VectorMemoryService

/-- `vectorEntryToMemoryEntry`: fold the transport-level message types into
`'conversation'`, pass anything else (i.e. `'memory'`) through the
`as any` cast unchanged. -/
def vectorEntryToMemoryEntry (e : VectorEntry) : MemoryEntry :=
  { id := e.id
    content := e.content
    embedding := e.embedding
    timestamp := e.metadata.timestamp
    type :=
      match e.metadata.type with
      | .user_message => "conversation"
      | .assistant_message => "conversation"
      | .conversation_context => "conversation"
      | t => vectorTypeString t
    importance := e.metadata.importance
    tags := e.metadata.tags
    context := e.metadata.context }

/-- `memoryTypeToVectorType`: the total API-to-storage type mapping. -/
def memoryTypeToVectorType : MemoryType → VectorType
  | .conversation => .conversation_context
  | .reflection => .memory
  | .insight => .memory
  | .preference => .memory
  | .fact => .memory

/-- `saveMemory`: map the type and delegate to `VectorDatabase.saveEntry`;
the `catch` rethrows, so provider failures propagate. -/
def saveMemory (embed : String → Except String (List ℚ)) (sqrtFn : ℚ → ℚ)
    (indexVectors : List (List ℚ)) (entries : List VectorEntry) (id : String)
    (now : ℚ) (content : String) (type : MemoryType) (importance : ℚ)
    (tags : List String) (context : Option String) :
    Except String (String × List VectorEntry) :=
  VectorDatabase.saveEntry embed sqrtFn indexVectors entries id now content
    (memoryTypeToVectorType type) importance tags context

/-- `searchMemories`: map the optional type filter, delegate to
`VectorDatabase.searchSimilar`, convert results.  (Its own `catch` also
returns `[]`, which composes with `searchSimilar`'s.) -/
def searchMemories (embed : String → Except String (List ℚ)) (sqrtFn : ℚ → ℚ)
    (indexVectors : List (List ℚ)) (entries : List VectorEntry)
    (query : String) (limit : ℕ) (minSimilarity : ℚ)
    (typeFilter : Option MemoryType) : List MemorySearchResult :=
  let vectorTypeFilter := typeFilter.map memoryTypeToVectorType
  match VectorDatabase.searchSimilar embed sqrtFn indexVectors entries query
      limit minSimilarity vectorTypeFilter with
  | .error _ => []
  | .ok results =>
    results.map (fun r =>
      { entry := vectorEntryToMemoryEntry r.entry, similarity := r.similarity })

end VectorMemoryService

/-! ## The analysis pipeline (`useConversationAnalysis` and
`LLMDecisionService`)

Decision/reflection records, the validation and fallback logic of
`llmDecisionService.ts`, the bounded histories, and a trace model of the
decision lane's concurrency structure. -/

/-- The action-type enum of an `LLMDecision`. -/
inductive ActionType where
  | wait : ActionType
  | reflect : ActionType
  | support : ActionType
  | clarify : ActionType
  | encourage : ActionType
  | check_in : ActionType
  | apologize : ActionType
  | redirect : ActionType
deriving DecidableEq, Repr

/-- The priority enum of an `LLMDecision`. -/
inductive Priority where
  | low : Priority
  | medium : Priority
  | high : Priority
  | urgent : Priority
deriving DecidableEq, Repr

/-- An `LLMDecision` (`src/types/conversationState.ts`). -/
structure LLMDecision where
  shouldAct : Bool
  actionType : ActionType
  priority : Priority
  timing : ℚ
  reasoning : String
  confidence : ℚ
  suggestedMessage : Option String
deriving DecidableEq, Repr

/-- The slice of `ConversationState` consumed by the modelled code paths
(`currentInput` drives every filter and threshold; the history length
drives `distinctUntilChanged`).  The remaining fields of the interface are
only forwarded to prompt building, which is out of scope. -/
structure ConversationState where
  currentInput : String
  conversationHistoryLength : ℕ
deriving DecidableEq, Repr

/-- A reflection message (`ReflectionMessage` of `src/types/chat.ts`). -/
structure ReflectionMessage where
  id : String
  content : String
  timestamp : ℚ
  isVisible : Bool
  emotions : List String
  emotionalState : String
deriving DecidableEq, Repr

/-- A decision-history element (`StateAnalysis`). -/
structure StateAnalysis where
  state : ConversationState
  decision : LLMDecision
  timestamp : ℚ
deriving DecidableEq, Repr

namespace LLMDecisionService

/-- `getDefaultDecision()` — the safe decision substituted by
`analyzeState` when the service call fails or returns unparseable JSON. -/
def getDefaultDecision : LLMDecision :=
  { shouldAct := false
    actionType := .wait
    priority := .low
    timing := 2000
    reasoning := "Konversationen flyter naturligt - väntar"
    confidence := 1 / 10
    suggestedMessage := none }

/-- `validateActionType`: keep a valid enum value, coerce anything else to
`'wait'`.  The raw service value is an arbitrary string. -/
def validateActionType (actionType : String) : ActionType :=
  if actionType = "wait" then .wait
  else if actionType = "reflect" then .reflect
  else if actionType = "support" then .support
  else if actionType = "clarify" then .clarify
  else if actionType = "encourage" then .encourage
  else if actionType = "check_in" then .check_in
  else if actionType = "apologize" then .apologize
  else if actionType = "redirect" then .redirect
  else .wait

/-- `validatePriority`: keep a valid enum value, coerce anything else to
`'low'`. -/
def validatePriority (priority : String) : Priority :=
  if priority = "low" then .low
  else if priority = "medium" then .medium
  else if priority = "high" then .high
  else if priority = "urgent" then .urgent
  else .low

/-- The core of the whitespace class stripped by JavaScript
`String.prototype.trim` (code points beyond ASCII whitespace are omitted;
they do not affect any statement below). -/
def isJsWhitespace (c : Char) : Bool :=
  c = ' ' || c = '\t' || c = '\n' || c = '\r' || c = '\x0b' || c = '\x0c'

/-- JavaScript `s.trim()`: strip whitespace from both ends. -/
def jsTrim (s : String) : String :=
  String.mk (((s.data.dropWhile isJsWhitespace).reverse.dropWhile
    isJsWhitespace).reverse)

/-- `generateReflection(state)` with the Reflection Service abstracted as
`svc`.  Returns the emitted value and whether the service was invoked:
below the 10-character trimmed-input threshold the observable completes
with `null` without any service call. -/
def generateReflection (svc : ConversationState → Option ReflectionMessage)
    (state : ConversationState) : Option ReflectionMessage × Bool :=
  if (jsTrim state.currentInput).length < 10 then (none, false)
  else (svc state, true)

end LLMDecisionService

namespace Pipeline

/-- The decision substituted by the `catchError` operator of the decision
lane (`useConversationAnalysis`) on timeout or service error. -/
def decisionCatchErrorFallback : LLMDecision :=
  { shouldAct := false
    actionType := .wait
    priority := .low
    timing := 2000
    reasoning := "Timeout eller fel i analys"
    confidence := 1 / 10
    suggestedMessage := none }

/-- The decision-lane timeout in milliseconds (`timeout(20000)`). -/
def decisionTimeoutMs : ℚ := 20000

/-- The reflection-lane timeout in milliseconds (`timeout(8000)`). -/
def reflectionTimeoutMs : ℚ := 8000

/-- Outcome of one decision-lane service call, as seen by the lane's
operator chain. -/
inductive DecisionCallOutcome where
  | success (d : LLMDecision) : DecisionCallOutcome
  | serviceError : DecisionCallOutcome
  | timeout : DecisionCallOutcome
deriving DecidableEq, Repr

/-- What the decision lane emits for one call outcome: the service result
on success, and `decisionCatchErrorFallback` when the call errored or
exceeded `decisionTimeoutMs` (the `catchError` branch).  Totality of this
function is the model-level statement that no exception escapes the
lane. -/
def decisionLaneResult : DecisionCallOutcome → LLMDecision
  | .success d => d
  | .serviceError => decisionCatchErrorFallback
  | .timeout => decisionCatchErrorFallback

/-- `setAnalysisHistory(prev => [...prev.slice(-19), analysis])`:
`Array.prototype.slice(-n)` keeps the last `n` elements. -/
def sliceLast {α : Type} (n : ℕ) (l : List α) : List α :=
  l.drop (l.length - n)

/-- The decision-history update of the decision lane. -/
def pushAnalysis (prev : List StateAnalysis) (a : StateAnalysis) :
    List StateAnalysis :=
  sliceLast 19 prev ++ [a]

/-- `setReflections(prev => [...prev.slice(-4), reflection])` — the rolling
reflection list update. -/
def pushReflection (prev : List ReflectionMessage) (r : ReflectionMessage) :
    List ReflectionMessage :=
  sliceLast 4 prev ++ [r]

/-- Events observable at the decision lane's `mergeMap`: a qualifying
snapshot arrives (after debounce, `distinctUntilChanged` and the
minimum-content filter), an in-flight service call completes (with a
result, an error or its per-call timeout), or the shared 10-second
`timeoutSubject` fires and — via `takeUntil` — unsubscribes every
in-flight inner observable. -/
inductive LaneEvent where
  | snapshot : LaneEvent
  | callDone : LaneEvent
  | globalTimeout : LaneEvent
deriving DecidableEq, Repr

/-- In-flight decision-call count transition of the source's `mergeMap`
lane: a new qualifying snapshot starts a fresh inner observable *without*
cancelling the previous one. -/
def mergeMapStep (n : ℕ) : LaneEvent → ℕ
  | .snapshot => n + 1
  | .callDone => n - 1
  | .globalTimeout => 0

/-- In-flight decision-call count after a trace of lane events, starting
idle, under the source's `mergeMap` semantics. -/
def mergeMapInFlight (events : List LaneEvent) : ℕ :=
  events.foldl mergeMapStep 0

/-- Modelled from the spec: the required mitigation (absent from the
source, which uses `mergeMap`) — a single-flight decision lane where a new
qualifying snapshot supersedes (cancels) any in-flight call before starting
its own, as `switchMap` would. -/
def singleFlightStep (n : ℕ) : LaneEvent → ℕ
  | .snapshot => 1
  | .callDone => n - 1
  | .globalTimeout => 0

/-- In-flight decision-call count after a trace of lane events under the
spec-mandated single-flight (cancel-on-supersede) semantics. -/
def singleFlightInFlight (events : List LaneEvent) : ℕ :=
  events.foldl singleFlightStep 0

end Pipeline

/-! ## IEEE-degenerate model of the two `cosineSimilarity` implementations

The repository contains two versions of `VectorDatabase.cosineSimilarity`:
the one in `src/services/vectorDatabase.ts` (no clamp, no NaN handling
beyond the `magnitude > 0` test) and a defensive duplicate of the class in
an unnamed source file (clamps to `[-1, 1]`, skips NaN coordinates,
maps a NaN similarity to `0`).  Both are modelled here over `FNum` so that
their behaviour on vectors containing `NaN` / `±Infinity` is exact. -/

/-- The three accumulators of the similarity loop. -/
structure CosAcc where
  dotProduct : FNum
  normA : FNum
  normB : FNum

/-- One iteration of the accumulation loop on coordinate pair `p`. -/
def cosStep (s : CosAcc) (p : FNum × FNum) : CosAcc :=
  { dotProduct := s.dotProduct.add (p.1.mul p.2)
    normA := s.normA.add (p.1.mul p.1)
    normB := s.normB.add (p.2.mul p.2) }

/-- The accumulation loop of `cosineSimilarity` in
`src/services/vectorDatabase.ts` (run only when the lengths agree, so the
`zip` covers every index). -/
def cosLoop (a b : List FNum) : CosAcc :=
  (a.zip b).foldl cosStep ⟨.fin 0, .fin 0, .fin 0⟩

/-- `cosineSimilarity` of `src/services/vectorDatabase.ts` with IEEE
semantics: `0` on length mismatch; otherwise `dot / magnitude` when
`magnitude > 0` (false for a NaN magnitude), else `0`.  No clamping, no
NaN filtering. -/
def cosineSimilarityF (sqrtFn : ℚ → ℚ) (a b : List FNum) : FNum :=
  if a.length ≠ b.length then .fin 0
  else
    let acc := cosLoop a b
    let magnitude := (FNum.sqrtE sqrtFn acc.normA).mul (FNum.sqrtE sqrtFn acc.normB)
    if (FNum.fin 0).ltb magnitude then acc.dotProduct.div magnitude else .fin 0

/-- One iteration of the duplicate (defensive) implementation's loop: a
coordinate pair containing a NaN is skipped (`continue`). -/
def cosStepSkipNaN (s : CosAcc) (p : FNum × FNum) : CosAcc :=
  if p.1.isNaN || p.2.isNaN then s else cosStep s p

/-- The accumulation loop of the duplicate implementation. -/
def cosLoopSkipNaN (a b : List FNum) : CosAcc :=
  (a.zip b).foldl cosStepSkipNaN ⟨.fin 0, .fin 0, .fin 0⟩

/-- The final step of the duplicate implementation: a NaN similarity
becomes `0`, anything else is clamped with
`Math.max(-1, Math.min(1, similarity))`. -/
def clampSimilarity (similarity : FNum) : FNum :=
  if similarity.isNaN then .fin 0
  else FNum.maxJ (.fin (-1)) (FNum.minJ (.fin 1) similarity)

/-- The duplicate `cosineSimilarity` (unnamed source file, defensive
version): `0` on length mismatch, NaN coordinates skipped, NaN similarity
mapped to `0`, result clamped to `[-1, 1]`. -/
def cosineSimilarityClampedF (sqrtFn : ℚ → ℚ) (a b : List FNum) : FNum :=
  if a.length ≠ b.length then .fin 0
  else
    let acc := cosLoopSkipNaN a b
    let magnitude := (FNum.sqrtE sqrtFn acc.normA).mul (FNum.sqrtE sqrtFn acc.normB)
    let similarity :=
      if (FNum.fin 0).ltb magnitude then acc.dotProduct.div magnitude else .fin 0
    clampSimilarity similarity

/-! ## Helper lemmas -/

/-- Any in-flight count evolved by the single-flight lane from a bounded
state stays bounded by one. -/
theorem singleFlight_foldl_le_one (events : List Pipeline.LaneEvent) :
    ∀ n : ℕ, n ≤ 1 → events.foldl Pipeline.singleFlightStep n ≤ 1 := by
  induction events with
  | nil => intro n hn; simpa using hn
  | cons e es ih =>
    intro n hn
    have hstep : Pipeline.singleFlightStep n e ≤ 1 := by
      cases e
      · simp [Pipeline.singleFlightStep]
      · simp only [Pipeline.singleFlightStep]
        omega
      · simp [Pipeline.singleFlightStep]
    simpa using ih _ hstep

/-! ## Claim C1 -/

/-- C1: the claim states that at every point at most one decision-lane
call is in flight, earlier calls being superseded (cancelled) when a new
qualifying snapshot arrives.  The source's decision lane uses `mergeMap`,
which starts a second concurrent inner call instead of cancelling the
first: after two qualifying snapshots with no completion in between, two
calls are in flight.  The spec itself records that the source does not
enforce single-flight and mandates it as a correctness fix, so this is a
code bug, not a spec error.  The last conjunct shows the spec-mandated
single-flight semantics does satisfy the claimed invariant. -/
theorem C1_decision_lane_not_single_flight :
    Pipeline.mergeMapInFlight [.snapshot, .snapshot] = 2
    ∧ 1 < Pipeline.mergeMapInFlight [.snapshot, .snapshot]
    ∧ ∀ events : List Pipeline.LaneEvent, Pipeline.singleFlightInFlight events ≤ 1 :=
  ⟨rfl, by decide, fun events => singleFlight_foldl_le_one events 0 (by omega)⟩

/-! ## Claim C5 -/

/-- C5: whenever a decision-lane call fails or exceeds the lane's
20-second timeout, the lane emits (via `catchError`, never an exception —
`decisionLaneResult` is total) the fallback decision with
`shouldAct = false`, `actionType = 'wait'` and confidence `0.1 < 0.5`；the
service-level default used for unparseable responses satisfies the same
bounds. -/
theorem C5_decision_lane_timeout_fallback :
    Pipeline.decisionLaneResult .serviceError = Pipeline.decisionCatchErrorFallback
    ∧ Pipeline.decisionLaneResult .timeout = Pipeline.decisionCatchErrorFallback
    ∧ Pipeline.decisionCatchErrorFallback.shouldAct = false
    ∧ Pipeline.decisionCatchErrorFallback.actionType = ActionType.wait
    ∧ Pipeline.decisionCatchErrorFallback.confidence < 1 / 2
    ∧ LLMDecisionService.getDefaultDecision.shouldAct = false
    ∧ LLMDecisionService.getDefaultDecision.actionType = ActionType.wait
    ∧ LLMDecisionService.getDefaultDecision.confidence < 1 / 2
    ∧ Pipeline.decisionTimeoutMs = 20000 :=
  ⟨rfl, rfl, rfl, rfl, by norm_num [Pipeline.decisionCatchErrorFallback],
    rfl, rfl, by norm_num [LLMDecisionService.getDefaultDecision], rfl⟩

/-! ## Claim C8 -/

/-- C8: a snapshot whose trimmed current input has fewer than 10
characters makes the reflection lane complete with a null reflection
without invoking the Reflection Service (the early `subscriber.next(null)`
branch of `generateReflection`). -/
theorem C8_short_input_skips_reflection_service
    (svc : ConversationState → Option ReflectionMessage)
    (s : ConversationState)
    (h : (LLMDecisionService.jsTrim s.currentInput).length < 10) :
    LLMDecisionService.generateReflection svc s = (none, false) := by
  simp [LLMDecisionService.generateReflection, h]

/-- Witness for C8 at the concrete snapshot with input `"hej"`. -/
theorem C8_short_input_skips_reflection_service_witness :
    (LLMDecisionService.jsTrim "hej").length < 10
    ∧ LLMDecisionService.generateReflection (fun _ => none)
        ⟨"hej", 0⟩ = (none, false) :=
  ⟨by decide, C8_short_input_skips_reflection_service _ _ (by decide)⟩

/-! ## Claim C9 -/

/-- C9: after every pipeline step the decision/analysis history holds at
most the last 20 analyses and the rolling reflection list at most the last
5 reflections; the new element is appended at the end and older elements
are dropped oldest-first (the updated list is a suffix of
`previous ++ [new]`). -/
theorem C9_bounded_histories (prev : List StateAnalysis) (a : StateAnalysis)
    (prevR : List ReflectionMessage) (r : ReflectionMessage) :
    (Pipeline.pushAnalysis prev a).length ≤ 20
    ∧ (Pipeline.pushAnalysis prev a).getLast? = some a
    ∧ (Pipeline.pushAnalysis prev a).IsSuffix (prev ++ [a])
    ∧ (Pipeline.pushReflection prevR r).length ≤ 5
    ∧ (Pipeline.pushReflection prevR r).getLast? = some r
    ∧ (Pipeline.pushReflection prevR r).IsSuffix (prevR ++ [r]) := by
  refine ⟨?_, ?_, ?_, ?_, ?_, ?_⟩
  · simp only [Pipeline.pushAnalysis, Pipeline.sliceLast, List.length_append,
      List.length_drop, List.length_singleton]
    omega
  · simp [Pipeline.pushAnalysis]
  · obtain ⟨t, ht⟩ := List.drop_suffix (prev.length - 19) prev
    refine ⟨t, ?_⟩
    show t ++ (prev.drop (prev.length - 19) ++ [a]) = prev ++ [a]
    rw [← List.append_assoc, ht]
  · simp only [Pipeline.pushReflection, Pipeline.sliceLast, List.length_append,
      List.length_drop, List.length_singleton]
    omega
  · simp [Pipeline.pushReflection]
  · obtain ⟨t, ht⟩ := List.drop_suffix (prevR.length - 4) prevR
    refine ⟨t, ?_⟩
    show t ++ (prevR.drop (prevR.length - 4) ++ [r]) = prevR ++ [r]
    rw [← List.append_assoc, ht]

/-! ## Claim C10 -/

/-- C10: with identical query, limit and threshold, `searchMemories`
returns the same result list for each of the four type filters
`'reflection'`, `'insight'`, `'preference'`, `'fact'`, because
`memoryTypeToVectorType` maps all four to the single storage type
`'memory'` before the filter reaches `searchSimilar`; the memory-type
distinction is not recoverable by filtered search. -/
theorem C10_memory_type_filters_equivalent
    (embed : String → Except String (List ℚ)) (sqrtFn : ℚ → ℚ)
    (indexVectors : List (List ℚ)) (entries : List VectorEntry)
    (query : String) (limit : ℕ) (minSimilarity : ℚ) :
    (VectorMemoryService.searchMemories embed sqrtFn indexVectors entries
        query limit minSimilarity (some .reflection)
      = VectorMemoryService.searchMemories embed sqrtFn indexVectors entries
        query limit minSimilarity (some .insight))
    ∧ (VectorMemoryService.searchMemories embed sqrtFn indexVectors entries
        query limit minSimilarity (some .insight)
      = VectorMemoryService.searchMemories embed sqrtFn indexVectors entries
        query limit minSimilarity (some .preference))
    ∧ (VectorMemoryService.searchMemories embed sqrtFn indexVectors entries
        query limit minSimilarity (some .preference)
      = VectorMemoryService.searchMemories embed sqrtFn indexVectors entries
        query limit minSimilarity (some .fact)) :=
  ⟨rfl, rfl, rfl⟩

/-! ## Claim C6 -/

/-- C6 counterexample: the claim states that *both* `saveEntry` and
`searchSimilar` propagate an Embedding Provider failure.  At a concrete
failing provider, `saveEntry` does propagate the error, but
`searchSimilar`'s `catch` block swallows it and resolves with the empty
list (`return []`), so the claim is false for search. -/
theorem C6_counterexample :
    VectorDatabase.searchSimilar (fun _ => .error "ProviderError") ratSqrt
        [] [] "kaffe" 5 (3 / 10) none = .ok []
    ∧ VectorDatabase.saveEntry (fun _ => .error "ProviderError") ratSqrt
        [] [] "id0" 0 "kaffe" .memory (1 / 2) [] none = .error "ProviderError" :=
  ⟨rfl, rfl⟩

/-- C6 (amended): on every input where the Embedding Provider fails,
`saveEntry` propagates the provider error to its caller unchanged, while
`searchSimilar` catches the failure and resolves with the empty result
list — search never propagates and never crashes, but it does silently
fall back. -/
theorem C6_save_propagates_search_swallows
    (embed : String → Except String (List ℚ)) (sqrtFn : ℚ → ℚ)
    (indexVectors : List (List ℚ)) (entries : List VectorEntry) (id : String)
    (now : ℚ) (content : String) (type : VectorType) (importance : ℚ)
    (tags : List String) (context : Option String) (query : String)
    (limit : ℕ) (minSimilarity : ℚ) (typeFilter : Option VectorType)
    (e : String) :
    (embed content = .error e →
      VectorDatabase.saveEntry embed sqrtFn indexVectors entries id now
        content type importance tags context = .error e)
    ∧ (embed query = .error e →
      VectorDatabase.searchSimilar embed sqrtFn indexVectors entries query
        limit minSimilarity typeFilter = .ok []) := by
  constructor
  · intro h
    unfold VectorDatabase.saveEntry
    rw [h]
    rfl
  · intro h
    unfold VectorDatabase.searchSimilar
    rw [h]

/-- Witness for C6 at a concrete always-failing provider. -/
theorem C6_save_propagates_search_swallows_witness :
    ((fun _ : String => (Except.error "quota" : Except String (List ℚ)))
        "minne" = .error "quota")
    ∧ VectorDatabase.saveEntry (fun _ => .error "quota") ratSqrt [] [] "id1"
        0 "minne" .memory (1 / 2) [] none = .error "quota" :=
  ⟨rfl,
    (C6_save_propagates_search_swallows (fun _ => .error "quota") ratSqrt []
      [] "id1" 0 "minne" .memory (1 / 2) [] none "minne" 5 (3 / 10) none
      "quota").1 rfl⟩

/-! ## Claim C3 -/

/-- C3: every result returned by the search core (a) has exact cosine
similarity to the query embedding at least `minSimilarity`, (b) carries the
filtered type when a type filter is given, (c) stores as its `similarity`
and `distance` fields exactly the cosine similarity and Euclidean distance
between the query embedding and that entry's stored embedding, and (d) is
an entry of the store; moreover the result list is sorted by similarity
descending and has length at most `limit`. -/
theorem C3_search_postconditions (sqrtFn : ℚ → ℚ)
    (indexVectors : List (List ℚ)) (entries : List VectorEntry)
    (queryEmbedding : List ℚ) (limit : ℕ) (minSimilarity : ℚ)
    (typeFilter : Option VectorType) :
    (VectorDatabase.searchSimilarCore sqrtFn indexVectors entries
        queryEmbedding limit minSimilarity typeFilter).length ≤ limit
    ∧ List.Sorted VectorDatabase.simGE
        (VectorDatabase.searchSimilarCore sqrtFn indexVectors entries
          queryEmbedding limit minSimilarity typeFilter)
    ∧ ∀ r ∈ VectorDatabase.searchSimilarCore sqrtFn indexVectors entries
        queryEmbedding limit minSimilarity typeFilter,
        minSimilarity ≤ r.similarity
        ∧ r.entry ∈ entries
        ∧ (∀ t, typeFilter = some t → r.entry.metadata.type = t)
        ∧ r.similarity =
            VectorDatabase.cosineSimilarity sqrtFn queryEmbedding
              r.entry.embedding
        ∧ r.distance =
            VectorDatabase.euclideanDistance sqrtFn queryEmbedding
              r.entry.embedding := by
  refine ⟨?_, ?_, ?_⟩
  · exact List.length_take_le _ _
  · exact List.Pairwise.sublist (List.take_sublist _ _)
      (List.sorted_insertionSort VectorDatabase.simGE _)
  · intro r hr
    have hr1 : r ∈ (((VectorDatabase.searchCandidates sqrtFn indexVectors
        queryEmbedding typeFilter entries).map
          (VectorDatabase.mkSearchResult sqrtFn queryEmbedding)).filter
        (fun x => decide (minSimilarity ≤ x.similarity))).insertionSort
        VectorDatabase.simGE :=
      (List.take_sublist _ _).subset hr
    have hr2 : r ∈ ((VectorDatabase.searchCandidates sqrtFn indexVectors
        queryEmbedding typeFilter entries).map
          (VectorDatabase.mkSearchResult sqrtFn queryEmbedding)).filter
        (fun x => decide (minSimilarity ≤ x.similarity)) :=
      (List.perm_insertionSort _ _).mem_iff.mp hr1
    have hr3 := List.mem_filter.mp hr2
    have hsim : minSimilarity ≤ r.similarity := of_decide_eq_true hr3.2
    obtain ⟨e, he, hre⟩ := List.mem_map.mp hr3.1
    have hef := List.mem_filter.mp he
    have hboth := Bool.and_eq_true_iff.mp hef.2
    refine ⟨hsim, ?_, ?_, ?_, ?_⟩
    · rw [← hre]
      exact hef.1
    · intro t ht
      rw [← hre]
      have hp := hboth.1
      rw [ht] at hp
      simpa [VectorDatabase.passesTypeFilter] using hp
    · rw [← hre]
      exact rfl
    · rw [← hre]
      exact rfl

/-! ## Claim C2: helper lemmas on the eviction sort

The eviction comparator `evictLE` is total but *not* transitive (two
importances within the `0.1` band compare by timestamp, so a chain of
small importance gaps can invert a large one), hence
`List.sorted_insertionSort` does not apply.  Totality alone still gives
that every *adjacent* pair of the sorted output is related, which is what
the amended claim uses. -/

/-- If `a` is not `≼`-before any element of `l`, ordered insertion appends
it at the end. -/
theorem orderedInsert_eq_append_of_forall_not {α : Type} (r : α → α → Prop)
    [DecidableRel r] (a : α) :
    ∀ l : List α, (∀ y ∈ l, ¬ r a y) → l.orderedInsert r a = l ++ [a] := by
  intro l
  induction l with
  | nil => intro _; rfl
  | cons b l ih =>
    intro h
    have hab : ¬ r a b := h b (List.mem_cons_self b l)
    simp only [List.orderedInsert, if_neg hab, List.cons_append]
    rw [ih (fun y hy => h y (List.mem_cons_of_mem b hy))]

/-- Ordered insertion with respect to a *total* relation preserves the
adjacent-pairs (`Chain'`) form of sortedness. -/
theorem chain'_orderedInsert {α : Type} (r : α → α → Prop) [DecidableRel r]
    (total : ∀ a b, r a b ∨ r b a) (a : α) :
    ∀ l : List α, List.Chain' r l → List.Chain' r (l.orderedInsert r a) := by
  intro l
  induction l with
  | nil => intro _; simp
  | cons b l ih =>
    intro hch
    by_cases hab : r a b
    · simpa [List.orderedInsert, if_pos hab] using
        List.chain'_cons'.mpr ⟨fun y hy => by
          simp only [List.head?_cons, Option.mem_def, Option.some.injEq] at hy
          rw [← hy]
          exact hab, hch⟩
    · have hba : r b a := (total a b).resolve_left hab
      have hch' : List.Chain' r l := (List.chain'_cons'.mp hch).2
      have hhead : ∀ y ∈ (l.orderedInsert r a).head?, r b y := by
        cases l with
        | nil =>
          intro y hy
          simp only [List.orderedInsert, List.head?_cons, Option.mem_def,
            Option.some.injEq] at hy
          rw [← hy]
          exact hba
        | cons c l2 =>
          intro y hy
          by_cases hac : r a c
          · simp only [List.orderedInsert, if_pos hac, List.head?_cons,
              Option.mem_def, Option.some.injEq] at hy
            rw [← hy]
            exact hba
          · simp only [List.orderedInsert, if_neg hac, List.head?_cons,
              Option.mem_def, Option.some.injEq] at hy
            rw [← hy]
            exact (List.chain'_cons.mp hch).1
      simpa [List.orderedInsert, if_neg hab] using
        List.chain'_cons'.mpr ⟨hhead, ih hch'⟩

/-- Insertion sort with respect to a total relation yields a list whose
adjacent pairs are all related. -/
theorem chain'_insertionSort {α : Type} (r : α → α → Prop) [DecidableRel r]
    (total : ∀ a b, r a b ∨ r b a) :
    ∀ l : List α, List.Chain' r (l.insertionSort r) := by
  intro l
  induction l with
  | nil => simp
  | cons a l ih => exact chain'_orderedInsert r total a _ ih

/-- The eviction comparator is total. -/
theorem evictLE_total (a b : VectorEntry) :
    VectorDatabase.evictLE a b ∨ VectorDatabase.evictLE b a := by
  unfold VectorDatabase.evictLE
  rcases le_total (b.metadata.importance - a.metadata.importance) 0 with h | h
  · by_cases hb : 1 / 10 < |b.metadata.importance - a.metadata.importance|
    · left
      rw [if_pos hb]
      exact h
    · rcases le_total (b.metadata.timestamp - a.metadata.timestamp) 0 with ht | ht
      · left
        rw [if_neg hb]
        exact ht
      · right
        have hb' : ¬ 1 / 10 < |a.metadata.importance - b.metadata.importance| := by
          rw [abs_sub_comm]
          exact hb
        rw [if_neg hb']
        linarith
  · by_cases hb : 1 / 10 < |a.metadata.importance - b.metadata.importance|
    · right
      rw [if_pos hb]
      linarith
    · rcases le_total (b.metadata.timestamp - a.metadata.timestamp) 0 with ht | ht
      · left
        have hb' : ¬ 1 / 10 < |b.metadata.importance - a.metadata.importance| := by
          rw [abs_sub_comm]
          exact hb
        rw [if_neg hb']
        exact ht
      · right
        rw [if_neg hb]
        linarith

/-- If the comparator keeps `s` no later than `ev`, then `ev`'s importance
exceeds `s`'s by at most the comparator's `0.1` band. -/
theorem evictLE_importance_bound {s ev : VectorEntry}
    (h : VectorDatabase.evictLE s ev) :
    ev.metadata.importance ≤ s.metadata.importance + 1 / 10 := by
  unfold VectorDatabase.evictLE at h
  by_cases hb : 1 / 10 < |ev.metadata.importance - s.metadata.importance|
  · rw [if_pos hb] at h
    linarith
  · have := abs_le.mp (le_of_not_lt hb)
    linarith [this.2]

/-- C2 (amended): after every insert the entry count is at most the
capacity 2000.  When an insert into a store at capacity overflows it, the
store is sorted by the code's comparator — importance descending, *except*
that entries whose importances differ by at most 0.1 are ordered by
timestamp descending instead — and truncated, evicting exactly one entry;
that evicted entry's importance can exceed the adjacent lowest-ranked
survivor's by at most the comparator's 0.1 tolerance band (and, by the
counterexample, really can exceed survivors' importances — strict
importance-then-recency ranking and the survivor/evicted mean-importance
comparison hold only up to that band). -/
theorem C2_capacity_eviction (es : List VectorEntry) (e : VectorEntry) :
    (VectorDatabase.saveEntryStore es e).length ≤ VectorDatabase.MAX_ENTRIES
    ∧ (es.length = VectorDatabase.MAX_ENTRIES →
        ∃ kept ev s,
          VectorDatabase.saveEntryStore es e = kept
          ∧ (es ++ [e]).Perm (kept ++ [ev])
          ∧ kept.length = VectorDatabase.MAX_ENTRIES
          ∧ kept.getLast? = some s
          ∧ ev.metadata.importance ≤ s.metadata.importance + 1 / 10) := by
  constructor
  · unfold VectorDatabase.saveEntryStore VectorDatabase.pruneEntries
    by_cases h : VectorDatabase.MAX_ENTRIES < (es ++ [e]).length
    · rw [if_pos h]
      exact List.length_take_le _ _
    · rw [if_neg h]
      omega
  · intro hlen
    have hL : (es ++ [e]).length = VectorDatabase.MAX_ENTRIES + 1 := by
      simp [hlen]
    have hsortlen :
        ((es ++ [e]).insertionSort VectorDatabase.evictLE).length
          = VectorDatabase.MAX_ENTRIES + 1 :=
      (List.perm_insertionSort VectorDatabase.evictLE (es ++ [e])).length_eq.trans hL
    have hrestlen :
        (((es ++ [e]).insertionSort VectorDatabase.evictLE).drop
          VectorDatabase.MAX_ENTRIES).length = 1 := by
      rw [List.length_drop, hsortlen]
      omega
    obtain ⟨ev, hev⟩ := List.length_eq_one.mp hrestlen
    set kept := ((es ++ [e]).insertionSort VectorDatabase.evictLE).take
      VectorDatabase.MAX_ENTRIES with hkept
    have hkeptlen : kept.length = VectorDatabase.MAX_ENTRIES := by
      rw [hkept, List.length_take, hsortlen]
      omega
    have hsplit : kept ++ [ev] = (es ++ [e]).insertionSort VectorDatabase.evictLE := by
      rw [hkept, ← hev]
      exact List.take_append_drop _ _
    have hknil : kept ≠ [] := by
      intro hk
      rw [hk] at hkeptlen
      simp [VectorDatabase.MAX_ENTRIES] at hkeptlen
    obtain ⟨s, hs⟩ : ∃ s, kept.getLast? = some s := by
      cases hk : kept.getLast? with
      | none => exact absurd (List.getLast?_eq_none_iff.mp hk) hknil
      | some s => exact ⟨s, rfl⟩
    have hchain : List.Chain' VectorDatabase.evictLE (kept ++ [ev]) := by
      rw [hsplit]
      exact chain'_insertionSort VectorDatabase.evictLE evictLE_total _
    have hlink : VectorDatabase.evictLE s ev := by
      have h3 := (List.chain'_append.mp hchain).2.2
      exact h3 s (by simpa using hs) ev (by simp)
    refine ⟨kept, ev, s, ?_, ?_, hkeptlen, hs, evictLE_importance_bound hlink⟩
    · unfold VectorDatabase.saveEntryStore VectorDatabase.pruneEntries
      rw [if_pos (by omega : VectorDatabase.MAX_ENTRIES < (es ++ [e]).length)]
    · exact ((hsplit ▸ List.perm_insertionSort VectorDatabase.evictLE
        (es ++ [e])).symm : (es ++ [e]).Perm (kept ++ [ev]))

/-- A bland stored entry used by the C2 witness store. -/
def witnessEntry : VectorEntry :=
  { id := "w", content := "w", embedding := []
    metadata := { timestamp := 0, type := .memory, importance := 1 / 2,
                  tags := [], context := none }
    idx0 := "", idx1 := "", idx2 := "", idx3 := "", idx4 := "" }

/-- The entry inserted by the C2 witness. -/
def witnessEntryNew : VectorEntry :=
  { id := "w2", content := "w2", embedding := []
    metadata := { timestamp := 1, type := .memory, importance := 1 / 2,
                  tags := [], context := none }
    idx0 := "", idx1 := "", idx2 := "", idx3 := "", idx4 := "" }

/-- Witness instantiation for C2 at a store of 2000 identical entries. -/
theorem C2_capacity_eviction_witness :
    (List.replicate 2000 witnessEntry).length = VectorDatabase.MAX_ENTRIES
    ∧ ∃ kept ev s,
        VectorDatabase.saveEntryStore (List.replicate 2000 witnessEntry)
          witnessEntryNew = kept
        ∧ (List.replicate 2000 witnessEntry ++ [witnessEntryNew]).Perm
            (kept ++ [ev])
        ∧ kept.length = VectorDatabase.MAX_ENTRIES
        ∧ kept.getLast? = some s
        ∧ ev.metadata.importance ≤ s.metadata.importance + 1 / 10 :=
  ⟨by simp only [List.length_replicate, VectorDatabase.MAX_ENTRIES],
    (C2_capacity_eviction (List.replicate 2000 witnessEntry) witnessEntryNew).2
      (by simp only [List.length_replicate, VectorDatabase.MAX_ENTRIES])⟩

/-! ### Claim C2: counterexample

A store at capacity holds one old entry of maximal importance `1.0`
(`ceEntryA`) and 1999 newer entries of importance `0.95` (`ceEntryB k`).
Inserting one more importance-`0.95` entry overflows the store.  Under the
claimed order — importance descending, then recency descending —
`ceEntryA` ranks first and must survive; but the code's comparator treats
the `0.05` importance gap (≤ 0.1) as a tie and orders by timestamp
descending, so the oldest entry `ceEntryA` sorts last and is evicted even
though every survivor has strictly smaller importance. -/

/-- The maximal-importance, oldest entry of the counterexample store. -/
def ceEntryA : VectorEntry :=
  { id := "A", content := "viktigast", embedding := []
    metadata := { timestamp := 0, type := .memory, importance := 1,
                  tags := [], context := none }
    idx0 := "", idx1 := "", idx2 := "", idx3 := "", idx4 := "" }

/-- The `k`-th filler entry: importance `0.95`, timestamp `k + 1`. -/
def ceEntryB (k : ℕ) : VectorEntry :=
  { id := "B", content := "fyllnad", embedding := []
    metadata := { timestamp := (k : ℚ) + 1, type := .memory,
                  importance := 19 / 20, tags := [], context := none }
    idx0 := "", idx1 := "", idx2 := "", idx3 := "", idx4 := "" }

/-- The counterexample store: exactly at capacity (2000 entries). -/
def ceStore : List VectorEntry :=
  ceEntryA :: (List.range 1999).map ceEntryB

/-- The entry whose insertion overflows the counterexample store. -/
def ceNew : VectorEntry := ceEntryB 1999

/-- The comparator never keeps `ceEntryA` before a filler entry: their
importances differ by only `0.05 ≤ 0.1`, so the tie-break compares
timestamps, and every filler is newer. -/
theorem ceEntryA_not_before_ceEntryB (k : ℕ) :
    ¬ VectorDatabase.evictLE ceEntryA (ceEntryB k) := by
  unfold VectorDatabase.evictLE ceEntryA ceEntryB
  norm_num
  refine ⟨by rw [abs_le]; norm_num, by positivity⟩

/-- The over-capacity list is `ceEntryA` consed on 2000 filler entries. -/
theorem ceStore_append : ceStore ++ [ceNew]
    = ceEntryA :: (List.range 2000).map ceEntryB := by
  have h2 : List.range 2000 = List.range 1999 ++ [1999] := by
    rw [show (2000 : ℕ) = 1999 + 1 from rfl, List.range_succ]
  show ceEntryA :: ((List.range 1999).map ceEntryB) ++ [ceEntryB 1999] = _
  rw [List.cons_append, h2, List.map_append, List.map_singleton]

/-- Sorting the over-capacity list puts `ceEntryA` last. -/
theorem ceSorted : (ceStore ++ [ceNew]).insertionSort VectorDatabase.evictLE
    = ((List.range 2000).map ceEntryB).insertionSort VectorDatabase.evictLE
      ++ [ceEntryA] := by
  rw [ceStore_append]
  show (((List.range 2000).map ceEntryB).insertionSort
      VectorDatabase.evictLE).orderedInsert VectorDatabase.evictLE ceEntryA = _
  apply orderedInsert_eq_append_of_forall_not
  intro y hy
  have hy2 : y ∈ (List.range 2000).map ceEntryB :=
    (List.perm_insertionSort _ _).mem_iff.mp hy
  obtain ⟨k, _, hk⟩ := List.mem_map.mp hy2
  rw [← hk]
  exact ceEntryA_not_before_ceEntryB k

/-- C2 counterexample: the insert that overflows the counterexample store
evicts `ceEntryA` — the unique entry of maximal importance `1.0` — while
the strictly less important filler `ceEntryB 0` survives; so eviction does
*not* keep the entries ranked highest by importance descending then
recency descending, and the evicted entry out-ranks every survivor in that
order. -/
theorem C2_counterexample :
    ceEntryA ∈ ceStore
    ∧ (ceEntryB 0) ∈ VectorDatabase.saveEntryStore ceStore ceNew
    ∧ ceEntryA ∉ VectorDatabase.saveEntryStore ceStore ceNew
    ∧ (ceEntryB 0).metadata.importance < ceEntryA.metadata.importance := by
  have hlen : (ceStore ++ [ceNew]).length = 2001 := by
    rw [ceStore_append]
    simp only [List.length_cons, List.length_map, List.length_range]
  have hsortBlen :
      (((List.range 2000).map ceEntryB).insertionSort
        VectorDatabase.evictLE).length = 2000 := by
    rw [(List.perm_insertionSort VectorDatabase.evictLE _).length_eq]
    simp only [List.length_map, List.length_range]
  have hstore : VectorDatabase.saveEntryStore ceStore ceNew
      = ((List.range 2000).map ceEntryB).insertionSort VectorDatabase.evictLE := by
    unfold VectorDatabase.saveEntryStore VectorDatabase.pruneEntries
    rw [if_pos (by rw [hlen]; norm_num [VectorDatabase.MAX_ENTRIES])]
    rw [ceSorted]
    rw [show VectorDatabase.MAX_ENTRIES = (((List.range 2000).map
      ceEntryB).insertionSort VectorDatabase.evictLE).length from hsortBlen.symm]
    exact List.take_left _ _
  refine ⟨List.mem_cons_self _ _, ?_, ?_, ?_⟩
  · rw [hstore, (List.perm_insertionSort _ _).mem_iff]
    exact List.mem_map.mpr ⟨0, List.mem_range.mpr (by norm_num), rfl⟩
  · rw [hstore, (List.perm_insertionSort _ _).mem_iff]
    intro hmem
    obtain ⟨k, _, hk⟩ := List.mem_map.mp hmem
    have himp := congrArg (fun e => e.metadata.importance) hk
    simp only [ceEntryB, ceEntryA] at himp
    norm_num at himp
  · show (19 / 20 : ℚ) < 1
    norm_num

/-! ## Claim C4: helper lemmas on IEEE propagation -/

/-- `NaN` absorbs addition on the left. -/
theorem FNum_nan_add (x : FNum) : FNum.nan.add x = .nan := by
  cases x <;> rfl

/-- `NaN` absorbs addition on the right. -/
theorem FNum_add_nan (x : FNum) : x.add .nan = .nan := by
  cases x <;> rfl

/-- `NaN` absorbs multiplication on the left. -/
theorem FNum_nan_mul (x : FNum) : FNum.nan.mul x = .nan := by
  cases x <;> rfl

/-- `NaN` absorbs multiplication on the right. -/
theorem FNum_mul_nan (x : FNum) : x.mul .nan = .nan := by
  cases x <;> rfl

/-- Once the `normA` accumulator is `NaN` it stays `NaN`. -/
theorem cosLoop_normA_stays_nan (l : List (FNum × FNum)) :
    ∀ s : CosAcc, s.normA = .nan → (l.foldl cosStep s).normA = .nan := by
  induction l with
  | nil => intro s hs; exact hs
  | cons p l ih =>
    intro s hs
    rw [List.foldl_cons]
    apply ih
    show s.normA.add (p.1.mul p.1) = FNum.nan
    rw [hs, FNum_nan_add]

/-- A `NaN` first coordinate anywhere in the zipped list drives the
`normA` accumulator to `NaN`. -/
theorem cosLoop_normA_nan (l : List (FNum × FNum)) :
    ∀ s : CosAcc, (∃ p ∈ l, p.1 = .nan) → (l.foldl cosStep s).normA = .nan := by
  induction l with
  | nil => intro s h; obtain ⟨p, hp, _⟩ := h; exact absurd hp (List.not_mem_nil p)
  | cons q l ih =>
    intro s h
    obtain ⟨p, hp, hp1⟩ := h
    rw [List.foldl_cons]
    rcases List.mem_cons.mp hp with hq | hq
    · apply cosLoop_normA_stays_nan
      show s.normA.add (q.1.mul q.1) = FNum.nan
      rw [hq] at hp1
      rw [hp1, FNum_nan_mul, FNum_add_nan]
    · exact ih _ ⟨p, hq, hp1⟩

/-- Once the `normB` accumulator is `NaN` it stays `NaN`. -/
theorem cosLoop_normB_stays_nan (l : List (FNum × FNum)) :
    ∀ s : CosAcc, s.normB = .nan → (l.foldl cosStep s).normB = .nan := by
  induction l with
  | nil => intro s hs; exact hs
  | cons p l ih =>
    intro s hs
    rw [List.foldl_cons]
    apply ih
    show s.normB.add (p.2.mul p.2) = FNum.nan
    rw [hs, FNum_nan_add]

/-- A `NaN` second coordinate anywhere in the zipped list drives the
`normB` accumulator to `NaN`. -/
theorem cosLoop_normB_nan (l : List (FNum × FNum)) :
    ∀ s : CosAcc, (∃ p ∈ l, p.2 = .nan) → (l.foldl cosStep s).normB = .nan := by
  induction l with
  | nil => intro s h; obtain ⟨p, hp, _⟩ := h; exact absurd hp (List.not_mem_nil p)
  | cons q l ih =>
    intro s h
    obtain ⟨p, hp, hp2⟩ := h
    rw [List.foldl_cons]
    rcases List.mem_cons.mp hp with hq | hq
    · apply cosLoop_normB_stays_nan
      show s.normB.add (q.2.mul q.2) = FNum.nan
      rw [hq] at hp2
      rw [hp2, FNum_nan_mul, FNum_add_nan]
    · exact ih _ ⟨p, hq, hp2⟩

/-- An element of the left list of a `zip` of equal-length lists occurs as
a first component of the zip. -/
theorem exists_pair_of_mem_left {α : Type} {x : α} :
    ∀ {a b : List α}, x ∈ a → a.length = b.length →
      ∃ p ∈ a.zip b, Prod.fst p = x := by
  intro a
  induction a with
  | nil => intro b hx; exact absurd hx (List.not_mem_nil x)
  | cons u a ih =>
    intro b hx hlen
    cases b with
    | nil => simp at hlen
    | cons v b =>
      rcases List.mem_cons.mp hx with hxu | hxa
      · exact ⟨(u, v), List.mem_cons_self _ _, hxu.symm⟩
      · obtain ⟨p, hp, hp1⟩ := ih hxa (by simpa using hlen)
        exact ⟨p, List.mem_cons_of_mem _ hp, hp1⟩

/-- An element of the right list of a `zip` of equal-length lists occurs
as a second component of the zip. -/
theorem exists_pair_of_mem_right {α : Type} {y : α} :
    ∀ {a b : List α}, y ∈ b → a.length = b.length →
      ∃ p ∈ a.zip b, Prod.snd p = y := by
  intro a
  induction a with
  | nil =>
    intro b hy hlen
    cases b with
    | nil => exact absurd hy (List.not_mem_nil y)
    | cons v b => simp at hlen
  | cons u a ih =>
    intro b hy hlen
    cases b with
    | nil => exact absurd hy (List.not_mem_nil y)
    | cons v b =>
      rcases List.mem_cons.mp hy with hyv | hyb
      · exact ⟨(u, v), List.mem_cons_self _ _, hyv.symm⟩
      · obtain ⟨p, hp, hp2⟩ := ih hyb (by simpa using hlen)
        exact ⟨p, List.mem_cons_of_mem _ hp, hp2⟩

/-- A `NaN` norm accumulator makes the magnitude `NaN`, `0 < NaN` is
false, and `cosineSimilarityF` lands in its `return 0` branch. -/
theorem cosineSimilarityF_eq_zero_of_nan_norm (sqrtFn : ℚ → ℚ)
    (a b : List FNum) (hlen : a.length = b.length)
    (hn : (cosLoop a b).normA = .nan ∨ (cosLoop a b).normB = .nan) :
    cosineSimilarityF sqrtFn a b = .fin 0 := by
  unfold cosineSimilarityF
  rw [if_neg (by omega : ¬ a.length ≠ b.length)]
  dsimp only
  rcases hn with hn | hn
  · rw [hn]
    rw [show FNum.sqrtE sqrtFn FNum.nan = FNum.nan from rfl, FNum_nan_mul]
    rfl
  · rw [hn]
    rw [show FNum.sqrtE sqrtFn FNum.nan = FNum.nan from rfl, FNum_mul_nan]
    rfl

/-- The `Math.min(1, ·)` step on a finite value computes the rational
minimum. -/
theorem FNum_minJ_one_fin (q : ℚ) :
    FNum.minJ (.fin 1) (.fin q) = .fin (min 1 q) := by
  unfold FNum.minJ
  rw [if_neg (by simp [FNum.isNaN])]
  by_cases h : (1 : ℚ) < q
  · rw [if_pos (by simpa [FNum.ltb] using h), min_eq_left (le_of_lt h)]
  · rw [if_neg (by simpa [FNum.ltb] using h), min_eq_right (not_lt.mp h)]

/-- The `Math.max(-1, ·)` step on a finite value computes the rational
maximum. -/
theorem FNum_maxJ_neg_one_fin (q : ℚ) :
    FNum.maxJ (.fin (-1)) (.fin q) = .fin (max (-1) q) := by
  unfold FNum.maxJ
  rw [if_neg (by simp [FNum.isNaN])]
  by_cases h : (-1 : ℚ) < q
  · rw [if_pos (by simpa [FNum.ltb] using h), max_eq_right (le_of_lt h)]
  · rw [if_neg (by simpa [FNum.ltb] using h), max_eq_left (not_lt.mp h)]

/-- The clamp step always produces a finite value in `[-1, 1]`. -/
theorem clampSimilarity_mem_Icc (s : FNum) :
    ∃ q : ℚ, clampSimilarity s = .fin q ∧ -1 ≤ q ∧ q ≤ 1 := by
  cases s with
  | nan => exact ⟨0, rfl, by norm_num, by norm_num⟩
  | inf => exact ⟨1, rfl, by norm_num, by norm_num⟩
  | ninf => exact ⟨-1, rfl, by norm_num, by norm_num⟩
  | fin q =>
    refine ⟨max (-1) (min 1 q), ?_, le_max_left _ _, ?_⟩
    · unfold clampSimilarity
      rw [if_neg (by simp [FNum.isNaN]), FNum_minJ_one_fin, FNum_maxJ_neg_one_fin]
    · rcases max_cases (-1 : ℚ) (min 1 q) with ⟨hm, _⟩ | ⟨hm, _⟩
      · rw [hm]; norm_num
      · rw [hm]; exact min_le_left _ _

/-- A zero left factor keeps the magnitude test false: `0 * x` is `0` or
`NaN`, and neither satisfies `0 < magnitude`. -/
theorem ltb_zero_mul_left (x : FNum) :
    (FNum.fin 0).ltb ((FNum.fin 0).mul x) = false := by
  cases x with
  | nan => rfl
  | inf =>
    show (FNum.fin 0).ltb (if (0 : ℚ) = 0 then FNum.nan
      else if (0 : ℚ) < 0 then FNum.inf else FNum.ninf) = false
    rw [if_pos rfl]
    rfl
  | ninf =>
    show (FNum.fin 0).ltb (if (0 : ℚ) = 0 then FNum.nan
      else if (0 : ℚ) < 0 then FNum.ninf else FNum.inf) = false
    rw [if_pos rfl]
    rfl
  | fin r =>
    show decide ((0 : ℚ) < 0 * r) = false
    simp

/-- A zero right factor keeps the magnitude test false. -/
theorem ltb_zero_mul_right (x : FNum) :
    (FNum.fin 0).ltb (x.mul (FNum.fin 0)) = false := by
  cases x with
  | nan => rfl
  | inf =>
    show (FNum.fin 0).ltb (if (0 : ℚ) = 0 then FNum.nan
      else if (0 : ℚ) < 0 then FNum.inf else FNum.ninf) = false
    rw [if_pos rfl]
    rfl
  | ninf =>
    show (FNum.fin 0).ltb (if (0 : ℚ) = 0 then FNum.nan
      else if (0 : ℚ) < 0 then FNum.ninf else FNum.inf) = false
    rw [if_pos rfl]
    rfl
  | fin r =>
    show decide ((0 : ℚ) < r * 0) = false
    simp

/-- All-zero first coordinates keep the `normA` accumulator at zero. -/
theorem cosLoop_normA_zero (l : List (FNum × FNum)) :
    ∀ s : CosAcc, (∀ p ∈ l, p.1 = .fin 0) → s.normA = .fin 0 →
      (l.foldl cosStep s).normA = .fin 0 := by
  induction l with
  | nil => intro s _ hs; exact hs
  | cons p l ih =>
    intro s hall hs
    rw [List.foldl_cons]
    apply ih _ (fun q hq => hall q (List.mem_cons_of_mem p hq))
    show s.normA.add (p.1.mul p.1) = .fin 0
    rw [hall p (List.mem_cons_self p l), hs]
    show FNum.fin (0 + 0 * 0) = FNum.fin 0
    norm_num

/-- All-zero second coordinates keep the `normB` accumulator at zero. -/
theorem cosLoop_normB_zero (l : List (FNum × FNum)) :
    ∀ s : CosAcc, (∀ p ∈ l, p.2 = .fin 0) → s.normB = .fin 0 →
      (l.foldl cosStep s).normB = .fin 0 := by
  induction l with
  | nil => intro s _ hs; exact hs
  | cons p l ih =>
    intro s hall hs
    rw [List.foldl_cons]
    apply ih _ (fun q hq => hall q (List.mem_cons_of_mem p hq))
    show s.normB.add (p.2.mul p.2) = .fin 0
    rw [hall p (List.mem_cons_self p l), hs]
    show FNum.fin (0 + 0 * 0) = FNum.fin 0
    norm_num

/-- Same for the `NaN`-skipping loop of the duplicate implementation:
skipped pairs leave the accumulator unchanged. -/
theorem cosLoopSkipNaN_normA_zero (l : List (FNum × FNum)) :
    ∀ s : CosAcc, (∀ p ∈ l, p.1 = .fin 0) → s.normA = .fin 0 →
      (l.foldl cosStepSkipNaN s).normA = .fin 0 := by
  induction l with
  | nil => intro s _ hs; exact hs
  | cons p l ih =>
    intro s hall hs
    rw [List.foldl_cons]
    apply ih _ (fun q hq => hall q (List.mem_cons_of_mem p hq))
    unfold cosStepSkipNaN
    by_cases hskip : (p.1.isNaN || p.2.isNaN) = true
    · rw [if_pos hskip]
      exact hs
    · rw [if_neg hskip]
      show s.normA.add (p.1.mul p.1) = .fin 0
      rw [hall p (List.mem_cons_self p l), hs]
      show FNum.fin (0 + 0 * 0) = FNum.fin 0
      norm_num

/-- Same for `normB` in the `NaN`-skipping loop. -/
theorem cosLoopSkipNaN_normB_zero (l : List (FNum × FNum)) :
    ∀ s : CosAcc, (∀ p ∈ l, p.2 = .fin 0) → s.normB = .fin 0 →
      (l.foldl cosStepSkipNaN s).normB = .fin 0 := by
  induction l with
  | nil => intro s _ hs; exact hs
  | cons p l ih =>
    intro s hall hs
    rw [List.foldl_cons]
    apply ih _ (fun q hq => hall q (List.mem_cons_of_mem p hq))
    unfold cosStepSkipNaN
    by_cases hskip : (p.1.isNaN || p.2.isNaN) = true
    · rw [if_pos hskip]
      exact hs
    · rw [if_neg hskip]
      show s.normB.add (p.2.mul p.2) = .fin 0
      rw [hall p (List.mem_cons_self p l), hs]
      show FNum.fin (0 + 0 * 0) = FNum.fin 0
      norm_num

/-- `Math.sqrt(0) = 0` makes the square root of a zero norm zero. -/
theorem sqrtE_fin_zero {sqrtFn : ℚ → ℚ} (hsq : sqrtFn 0 = 0) :
    FNum.sqrtE sqrtFn (.fin 0) = .fin 0 := by
  show (if (0 : ℚ) < 0 then FNum.nan else FNum.fin (sqrtFn 0)) = FNum.fin 0
  rw [if_neg (lt_irrefl (0 : ℚ)), hsq]

/-- Clamping a zero similarity yields zero. -/
theorem clampSimilarity_fin_zero : clampSimilarity (.fin 0) = .fin 0 := by
  norm_num [clampSimilarity, FNum.isNaN, FNum.minJ, FNum.maxJ, FNum.ltb]

/-- C4 (amended): the `cosineSimilarity` of `src/services/vectorDatabase.ts`
returns `0` on mismatched lengths, on vectors containing `NaN`, and on
zero-magnitude (all-zero) vectors (given `Math.sqrt(0) = 0`), and never
raises; but it is *not* clamped and does *not* return `0` on every
non-finite input — on vectors containing `±Infinity` it can return `NaN`
(see the counterexample).  The duplicate defensive implementation also
returns `0` on zero-magnitude vectors and always returns a finite value
clamped to `[-1, 1]`, but it skips `NaN` coordinates instead of scoring
such vectors `0`. -/
theorem C4_cosine_degenerate_semantics (sqrtFn : ℚ → ℚ) (a b : List FNum) :
    (a.length ≠ b.length → cosineSimilarityF sqrtFn a b = .fin 0)
    ∧ (a.length = b.length → (FNum.nan ∈ a ∨ FNum.nan ∈ b) →
        cosineSimilarityF sqrtFn a b = .fin 0)
    ∧ (sqrtFn 0 = 0 →
        ((∀ x ∈ a, x = FNum.fin 0) ∨ (∀ x ∈ b, x = FNum.fin 0)) →
        cosineSimilarityF sqrtFn a b = .fin 0)
    ∧ (sqrtFn 0 = 0 →
        ((∀ x ∈ a, x = FNum.fin 0) ∨ (∀ x ∈ b, x = FNum.fin 0)) →
        cosineSimilarityClampedF sqrtFn a b = .fin 0)
    ∧ (∃ q : ℚ, cosineSimilarityClampedF sqrtFn a b = .fin q
        ∧ -1 ≤ q ∧ q ≤ 1) := by
  refine ⟨?_, ?_, ?_, ?_, ?_⟩
  · intro h
    unfold cosineSimilarityF
    rw [if_pos h]
  · intro hlen hmem
    apply cosineSimilarityF_eq_zero_of_nan_norm sqrtFn a b hlen
    rcases hmem with hmem | hmem
    · obtain ⟨p, hp, hp1⟩ := exists_pair_of_mem_left hmem hlen
      exact Or.inl (cosLoop_normA_nan (a.zip b) _ ⟨p, hp, hp1⟩)
    · obtain ⟨p, hp, hp2⟩ := exists_pair_of_mem_right hmem hlen
      exact Or.inr (cosLoop_normB_nan (a.zip b) _ ⟨p, hp, hp2⟩)
  · intro hsq hzero
    by_cases hl : a.length ≠ b.length
    · unfold cosineSimilarityF
      rw [if_pos hl]
    · unfold cosineSimilarityF
      rw [if_neg hl]
      dsimp only
      rcases hzero with hz | hz
      · have hA : (cosLoop a b).normA = .fin 0 :=
          cosLoop_normA_zero (a.zip b) _
            (fun p hp => hz p.1 (List.of_mem_zip hp).1) rfl
        rw [hA, sqrtE_fin_zero hsq, ltb_zero_mul_left]
        rw [if_neg Bool.false_ne_true]
      · have hB : (cosLoop a b).normB = .fin 0 :=
          cosLoop_normB_zero (a.zip b) _
            (fun p hp => hz p.2 (List.of_mem_zip hp).2) rfl
        rw [hB, sqrtE_fin_zero hsq, ltb_zero_mul_right]
        rw [if_neg Bool.false_ne_true]
  · intro hsq hzero
    by_cases hl : a.length ≠ b.length
    · unfold cosineSimilarityClampedF
      rw [if_pos hl]
    · unfold cosineSimilarityClampedF
      rw [if_neg hl]
      dsimp only
      rcases hzero with hz | hz
      · have hA : (cosLoopSkipNaN a b).normA = .fin 0 :=
          cosLoopSkipNaN_normA_zero (a.zip b) _
            (fun p hp => hz p.1 (List.of_mem_zip hp).1) rfl
        rw [hA, sqrtE_fin_zero hsq, ltb_zero_mul_left]
        rw [if_neg Bool.false_ne_true]
        exact clampSimilarity_fin_zero
      · have hB : (cosLoopSkipNaN a b).normB = .fin 0 :=
          cosLoopSkipNaN_normB_zero (a.zip b) _
            (fun p hp => hz p.2 (List.of_mem_zip hp).2) rfl
        rw [hB, sqrtE_fin_zero hsq, ltb_zero_mul_right]
        rw [if_neg Bool.false_ne_true]
        exact clampSimilarity_fin_zero
  · by_cases hl : a.length ≠ b.length
    · unfold cosineSimilarityClampedF
      rw [if_pos hl]
      exact ⟨0, rfl, by norm_num, by norm_num⟩
    · unfold cosineSimilarityClampedF
      rw [if_neg hl]
      exact clampSimilarity_mem_Icc _

/-- Witness for C4 at concrete degenerate vectors (mismatched lengths, a
`NaN` coordinate, an all-zero vector, and an `Infinity` coordinate). -/
theorem C4_cosine_degenerate_semantics_witness :
    cosineSimilarityF ratSqrt [.fin 1] [] = .fin 0
    ∧ cosineSimilarityF ratSqrt [.nan] [.fin 2] = .fin 0
    ∧ cosineSimilarityF ratSqrt [.fin 0] [.fin 3] = .fin 0
    ∧ cosineSimilarityClampedF ratSqrt [.fin 0] [.fin 3] = .fin 0
    ∧ (∃ q : ℚ, cosineSimilarityClampedF ratSqrt [.inf] [.fin 1] = .fin q
        ∧ -1 ≤ q ∧ q ≤ 1) :=
  ⟨(C4_cosine_degenerate_semantics ratSqrt [.fin 1] []).1 (by decide),
    (C4_cosine_degenerate_semantics ratSqrt [.nan] [.fin 2]).2.1 rfl
      (Or.inl (List.mem_singleton.mpr rfl)),
    (C4_cosine_degenerate_semantics ratSqrt [.fin 0] [.fin 3]).2.2.1
      (by norm_num [ratSqrt, natSqrt, natSqrtAux]) (Or.inl (by simp)),
    (C4_cosine_degenerate_semantics ratSqrt [.fin 0] [.fin 3]).2.2.2.1
      (by norm_num [ratSqrt, natSqrt, natSqrtAux]) (Or.inl (by simp)),
    (C4_cosine_degenerate_semantics ratSqrt [.inf] [.fin 1]).2.2.2.2⟩

/-- C4 counterexample: the claim says the similarity is in `[-1, 1]` and
is `0` whenever a vector contains non-finite values.  The
`src/services/vectorDatabase.ts` implementation applied to `[Infinity]`
and `[1]` returns `NaN` — not `0`, not in `[-1, 1]`; and the duplicate
clamped implementation applied to `[NaN, 1]` and `[0, 1]` skips the `NaN`
coordinate and returns `1`, not `0`, although the vector contains a
non-finite value. -/
theorem C4_counterexample :
    cosineSimilarityF ratSqrt [.inf] [.fin 1] = .nan
    ∧ cosineSimilarityClampedF ratSqrt [.nan, .fin 1] [.fin 0, .fin 1]
        = .fin 1 := by
  constructor
  · norm_num [cosineSimilarityF, cosLoop, cosStep, FNum.add, FNum.mul,
      FNum.sqrtE, FNum.ltb, FNum.div, ratSqrt, natSqrt, natSqrtAux]
  · norm_num [cosineSimilarityClampedF, cosLoopSkipNaN, cosStepSkipNaN,
      cosStep, clampSimilarity, FNum.isNaN, FNum.add, FNum.mul, FNum.sqrtE,
      FNum.ltb, FNum.div, FNum.minJ, FNum.maxJ, ratSqrt, natSqrt, natSqrtAux]

/-! ## Claim C7: lexicographic order of the fixed-width index encoding

Lean's `String` order is `List.lt` on the character lists with code-point
comparison, which on ASCII agrees with JavaScript's code-unit string
comparison.  The lemmas below relate that lexicographic order on
zero-padded digit blocks to the order of the encoded numbers. -/

/-- Inversion of lexicographic `<` at a cons. -/
theorem list_lt_cons_iff {c₁ c₂ : Char} {t₁ t₂ : List Char} :
    List.lt (c₁ :: t₁) (c₂ :: t₂)
      ↔ c₁ < c₂ ∨ (¬ c₁ < c₂ ∧ ¬ c₂ < c₁ ∧ List.lt t₁ t₂) := by
  constructor
  · intro h
    cases h with
    | head _ _ h => exact Or.inl h
    | tail h1 h2 h3 => exact Or.inr ⟨h1, h2, h3⟩
  · intro h
    rcases h with h | ⟨h1, h2, h3⟩
    · exact List.lt.head _ _ h
    · exact List.lt.tail h1 h2 h3

/-- Characters that are mutually not-less are equal. -/
theorem char_eq_of_not_lt_not_lt {u v : Char} (h1 : ¬ u < v) (h2 : ¬ v < u) :
    u = v :=
  le_antisymm (not_lt.mp h2) (not_lt.mp h1)

/-- Lexicographic `<` on character lists is irreflexive. -/
theorem list_lt_irrefl : ∀ l : List Char, ¬ List.lt l l := by
  intro l
  induction l with
  | nil => exact fun h => nomatch h
  | cons c t ih =>
    intro h
    rcases list_lt_cons_iff.mp h with h | ⟨_, _, h3⟩
    · exact lt_irrefl c h
    · exact ih h3

/-- `Nat.digitChar` is strictly monotone on single digits. -/
theorem digitChar_lt_iff : ∀ d < 10, ∀ e < 10,
    (Nat.digitChar d < Nat.digitChar e ↔ d < e) := by decide

/-- Splitting a `<` on naturals along division by a positive base. -/
theorem nat_lt_iff_div_mod (P : ℕ) (hP : 0 < P) (m₁ m₂ : ℕ) :
    m₁ < m₂ ↔ (m₁ / P < m₂ / P ∨ (m₁ / P = m₂ / P ∧ m₁ % P < m₂ % P)) := by
  constructor
  · intro h
    rcases lt_trichotomy (m₁ / P) (m₂ / P) with hd | hd | hd
    · exact Or.inl hd
    · right
      refine ⟨hd, ?_⟩
      have h1 := Nat.div_add_mod m₁ P
      have h2 := Nat.div_add_mod m₂ P
      rw [hd] at h1
      omega
    · exact absurd (Nat.div_le_div_right (le_of_lt h))
        (not_le.mpr hd)
  · intro h
    rcases h with hd | ⟨hd, hr⟩
    · have h1 := Nat.div_add_mod m₁ P
      have hm1 : m₁ % P < P := Nat.mod_lt m₁ hP
      have hstep : P * (m₁ / P + 1) ≤ P * (m₂ / P) :=
        Nat.mul_le_mul_left P (Nat.succ_le_of_lt hd)
      have h2 : P * (m₂ / P) ≤ m₂ := by
        have := Nat.div_add_mod m₂ P
        omega
      have : P * (m₁ / P + 1) = P * (m₁ / P) + P := by ring
      omega
    · have h1 := Nat.div_add_mod m₁ P
      have h2 := Nat.div_add_mod m₂ P
      rw [hd] at h1
      omega

/-- Each zero-padded digit block has exactly its nominal length. -/
theorem zeroPadDigits_length : ∀ (k m : ℕ), (zeroPadDigits k m).length = k := by
  intro k
  induction k with
  | zero => intro m; rfl
  | succ k ih =>
    intro m
    show (Nat.digitChar _ :: zeroPadDigits k _).length = k + 1
    rw [List.length_cons, ih]

/-- On blocks of the same width, lexicographic `<` is numeric `<`. -/
theorem zeroPadDigits_lt_iff : ∀ (k : ℕ) {m₁ m₂ : ℕ}, m₁ < 10 ^ k →
    m₂ < 10 ^ k →
    (List.lt (zeroPadDigits k m₁) (zeroPadDigits k m₂) ↔ m₁ < m₂) := by
  intro k
  induction k with
  | zero =>
    intro m₁ m₂ h₁ h₂
    have : m₁ = 0 := by simpa using Nat.lt_one_iff.mp h₁
    have : m₂ = 0 := by simpa using Nat.lt_one_iff.mp h₂
    constructor
    · intro h
      exact absurd h (fun h => nomatch h)
    · omega
  | succ k ih =>
    intro m₁ m₂ h₁ h₂
    have hd₁ : m₁ / 10 ^ k < 10 := by
      rw [Nat.div_lt_iff_lt_mul (Nat.pos_pow_of_pos k (by norm_num))]
      calc m₁ < 10 ^ (k + 1) := h₁
        _ = 10 * 10 ^ k := by ring
    have hd₂ : m₂ / 10 ^ k < 10 := by
      rw [Nat.div_lt_iff_lt_mul (Nat.pos_pow_of_pos k (by norm_num))]
      calc m₂ < 10 ^ (k + 1) := h₂
        _ = 10 * 10 ^ k := by ring
    have hr₁ : m₁ % 10 ^ k < 10 ^ k :=
      Nat.mod_lt _ (Nat.pos_pow_of_pos k (by norm_num))
    have hr₂ : m₂ % 10 ^ k < 10 ^ k :=
      Nat.mod_lt _ (Nat.pos_pow_of_pos k (by norm_num))
    show List.lt (Nat.digitChar _ :: zeroPadDigits k _)
        (Nat.digitChar _ :: zeroPadDigits k _) ↔ _
    rw [list_lt_cons_iff]
    rw [nat_lt_iff_div_mod (10 ^ k) (Nat.pos_pow_of_pos k (by norm_num)) m₁ m₂]
    constructor
    · intro h
      rcases h with h | ⟨hn1, hn2, h3⟩
      · exact Or.inl ((digitChar_lt_iff _ hd₁ _ hd₂).mp h)
      · have hde : m₁ / 10 ^ k = m₂ / 10 ^ k := by
          have e := char_eq_of_not_lt_not_lt hn1 hn2
          by_contra hne
          rcases Nat.lt_or_ge (m₁ / 10 ^ k) (m₂ / 10 ^ k) with hlt | hge
          · exact absurd ((digitChar_lt_iff _ hd₁ _ hd₂).mpr hlt) (e ▸ hn1)
          · have hlt : m₂ / 10 ^ k < m₁ / 10 ^ k := by omega
            exact absurd ((digitChar_lt_iff _ hd₂ _ hd₁).mpr hlt) (e ▸ hn2)
        exact Or.inr ⟨hde, (ih hr₁ hr₂).mp h3⟩
    · intro h
      rcases h with h | ⟨hde, hr⟩
      · exact Or.inl ((digitChar_lt_iff _ hd₁ _ hd₂).mpr h)
      · refine Or.inr ⟨?_, ?_, (ih hr₁ hr₂).mpr hr⟩
        · rw [hde]
          exact fun hc => lt_irrefl _ hc
        · rw [hde]
          exact fun hc => lt_irrefl _ hc

/-- Equal-width digit blocks are equal only for equal numbers. -/
theorem zeroPadDigits_inj (k : ℕ) {m₁ m₂ : ℕ} (h₁ : m₁ < 10 ^ k)
    (h₂ : m₂ < 10 ^ k) (he : zeroPadDigits k m₁ = zeroPadDigits k m₂) :
    m₁ = m₂ := by
  by_contra hne
  rcases Nat.lt_or_ge m₁ m₂ with h | h
  · exact list_lt_irrefl _ (he ▸ (zeroPadDigits_lt_iff k h₁ h₂).mpr h)
  · have h : m₂ < m₁ := by omega
    exact list_lt_irrefl _ (he ▸ (zeroPadDigits_lt_iff k h₂ h₁).mpr h)

/-- Lexicographic `<` across an equal-length prefix splits into "prefix
strictly smaller" or "prefix equal and tail smaller". -/
theorem list_lt_append_iff : ∀ (xs xs' : List Char), xs.length = xs'.length →
    ∀ (ys ys' : List Char),
    (List.lt (xs ++ ys) (xs' ++ ys')
      ↔ (List.lt xs xs' ∨ (xs = xs' ∧ List.lt ys ys'))) := by
  intro xs
  induction xs with
  | nil =>
    intro xs' hlen ys ys'
    cases xs' with
    | nil =>
      show List.lt ys ys'
        ↔ (List.lt ([] : List Char) [] ∨ (([] : List Char) = [] ∧ List.lt ys ys'))
      constructor
      · intro h
        exact Or.inr ⟨rfl, h⟩
      · intro h
        rcases h with h | ⟨_, h⟩
        · exact absurd h (fun h => nomatch h)
        · exact h
    | cons u t => simp at hlen
  | cons c t ih =>
    intro xs' hlen ys ys'
    cases xs' with
    | nil => simp at hlen
    | cons c' t' =>
      show List.lt (c :: (t ++ ys)) (c' :: (t' ++ ys')) ↔ _
      rw [list_lt_cons_iff, ih t' (by simpa using hlen) ys ys',
        list_lt_cons_iff]
      constructor
      · intro h
        rcases h with h | ⟨h1, h2, h3 | ⟨he, h4⟩⟩
        · exact Or.inl (Or.inl h)
        · exact Or.inl (Or.inr ⟨h1, h2, h3⟩)
        · exact Or.inr ⟨by rw [char_eq_of_not_lt_not_lt h1 h2, he], h4⟩
      · intro h
        rcases h with (h | ⟨h1, h2, h3⟩) | ⟨he, h4⟩
        · exact Or.inl h
        · exact Or.inr ⟨h1, h2, Or.inl h3⟩
        · have hc : c = c' := by
            injection he
          have ht : t = t' := by
            injection he
          exact Or.inr ⟨by rw [hc]; exact fun h => lt_irrefl _ h,
            by rw [hc]; exact fun h => lt_irrefl _ h, Or.inr ⟨ht, h4⟩⟩

/-- Unfolding equation of `zeroPadDigits` at a successor width. -/
theorem zeroPadDigits_succ (k m : ℕ) :
    zeroPadDigits (k + 1) m
      = Nat.digitChar (m / 10 ^ k) :: zeroPadDigits k (m % 10 ^ k) := rfl

/-- The width-3 digit block, written with plain divisions. -/
theorem zeroPadDigits_three (m : ℕ) :
    zeroPadDigits 3 m = [Nat.digitChar (m / 100), Nat.digitChar (m / 10 % 10),
      Nat.digitChar (m % 10)] := by
  rw [show (3 : ℕ) = 2 + 1 from rfl, zeroPadDigits_succ,
    show (2 : ℕ) = 1 + 1 from rfl, zeroPadDigits_succ,
    show (1 : ℕ) = 0 + 1 from rfl, zeroPadDigits_succ]
  have e1 : m / 10 ^ (1 + 1) = m / 100 := by norm_num
  have e2 : m % 10 ^ (1 + 1) / 10 ^ (0 + 1) = m / 10 % 10 := by
    norm_num
    try omega
  have e3 : m % 10 ^ (1 + 1) % 10 ^ (0 + 1) / 10 ^ 0 = m % 10 := by
    norm_num
    try omega
  rw [e1, e2, e3]
  rfl

/-- `natRepr` of a single digit. -/
theorem natRepr_lt_ten {n : ℕ} (h : n < 10) :
    natRepr n = [Nat.digitChar n] := by
  unfold natRepr
  rw [dif_pos h]

/-- `natRepr` of a multi-digit number. -/
theorem natRepr_ge_ten {n : ℕ} (h : ¬ n < 10) :
    natRepr n = natRepr (n / 10) ++ [Nat.digitChar (n % 10)] := by
  conv_lhs => rw [natRepr]
  rw [dif_neg h]

/-- Left-padding the minimal rendering of `h < 1000` with zeros to width 3
gives exactly the width-3 digit block — this is what makes `padStart(10,
'0')` after `toFixed(6)` a fixed-shape encoding below 1000. -/
theorem natRepr_pad3 (h : ℕ) (hh : h < 1000) :
    List.replicate (3 - (natRepr h).length) '0' ++ natRepr h
      = zeroPadDigits 3 h := by
  by_cases c1 : h < 10
  · rw [natRepr_lt_ten c1, zeroPadDigits_three]
    have e1 : h / 100 = 0 := by omega
    have e2 : h / 10 % 10 = 0 := by omega
    have e3 : h % 10 = h := by omega
    rw [e1, e2, e3]
    rfl
  · by_cases c2 : h < 100
    · rw [natRepr_ge_ten c1, natRepr_lt_ten (by omega : h / 10 < 10),
        zeroPadDigits_three]
      have e1 : h / 100 = 0 := by omega
      have e2 : h / 10 % 10 = h / 10 := by omega
      rw [e1, e2]
      rfl
    · rw [natRepr_ge_ten c1, natRepr_ge_ten (by omega : ¬ h / 10 < 10),
        natRepr_lt_ten (by omega : h / 10 / 10 < 10), zeroPadDigits_three]
      have e1 : h / 10 / 10 = h / 100 := by omega
      rw [e1]
      rfl

/-- `toFixed6` at a known non-negative rounding. -/
theorem toFixed6_of_floor_eq {x : ℚ} {n : ℤ}
    (h : ⌊x * 1000000 + 1 / 2⌋ = n) (hn : 0 ≤ n) :
    toFixed6 x = fixedOfNat n.toNat := by
  unfold toFixed6
  show (if ⌊x * 1000000 + 1 / 2⌋ < 0 then
      String.mk ('-' :: (fixedOfNat (⌊x * 1000000 + 1 / 2⌋).natAbs).data)
    else fixedOfNat (⌊x * 1000000 + 1 / 2⌋).toNat) = fixedOfNat n.toNat
  rw [h, if_neg (not_lt.mpr hn)]

/-- For encodable values (non-negative, rounding below `10⁹`) the encoded
string's characters are the three integer digits, a dot, and the six
fraction digits of the rounded scaled value. -/
theorem indexNrToString_data (a : ℚ) (ha : 0 ≤ a)
    (hup : ⌊a * 1000000 + 1 / 2⌋ < 1000000000) :
    (indexNrToString a).data
      = zeroPadDigits 3 ((⌊a * 1000000 + 1 / 2⌋).toNat / 1000000)
        ++ '.' :: zeroPadDigits 6 ((⌊a * 1000000 + 1 / 2⌋).toNat % 1000000) := by
  have hge : (0 : ℤ) ≤ ⌊a * 1000000 + 1 / 2⌋ := by
    apply Int.le_floor.mpr
    push_cast
    positivity
  have htf : toFixed6 a = fixedOfNat (⌊a * 1000000 + 1 / 2⌋).toNat :=
    toFixed6_of_floor_eq rfl hge
  have hh : (⌊a * 1000000 + 1 / 2⌋).toNat / 1000000 < 1000 := by omega
  have hlenR := congrArg List.length (natRepr_pad3 _ hh)
  rw [List.length_append, List.length_replicate, zeroPadDigits_length] at hlenR
  unfold indexNrToString
  rw [htf]
  unfold padStartZeros fixedOfNat
  show List.replicate (10 - (natRepr ((⌊a * 1000000 + 1 / 2⌋).toNat / 1000000)
      ++ '.' :: zeroPadDigits 6 ((⌊a * 1000000 + 1 / 2⌋).toNat % 1000000)).length)
      '0' ++ (natRepr ((⌊a * 1000000 + 1 / 2⌋).toNat / 1000000)
      ++ '.' :: zeroPadDigits 6 ((⌊a * 1000000 + 1 / 2⌋).toNat % 1000000)) = _
  rw [List.length_append, List.length_cons, zeroPadDigits_length]
  rw [show 10 - ((natRepr ((⌊a * 1000000 + 1 / 2⌋).toNat / 1000000)).length
      + (6 + 1))
    = 3 - (natRepr ((⌊a * 1000000 + 1 / 2⌋).toNat / 1000000)).length by omega]
  rw [← List.append_assoc, natRepr_pad3 _ hh]

/-- Lexicographic comparison of two encoded keys is numeric comparison of
the rounded scaled values. -/
theorem indexKey_lt_iff {N₁ N₂ : ℕ} (h₁ : N₁ < 1000000000)
    (h₂ : N₂ < 1000000000) :
    List.lt
      (zeroPadDigits 3 (N₁ / 1000000) ++ '.' :: zeroPadDigits 6 (N₁ % 1000000))
      (zeroPadDigits 3 (N₂ / 1000000) ++ '.' :: zeroPadDigits 6 (N₂ % 1000000))
    ↔ N₁ < N₂ := by
  have hp3 : (10 : ℕ) ^ 3 = 1000 := by norm_num
  have hp6 : (10 : ℕ) ^ 6 = 1000000 := by norm_num
  have hd₁ : N₁ / 1000000 < 10 ^ 3 := by rw [hp3]; omega
  have hd₂ : N₂ / 1000000 < 10 ^ 3 := by rw [hp3]; omega
  have hr₁ : N₁ % 1000000 < 10 ^ 6 := by rw [hp6]; omega
  have hr₂ : N₂ % 1000000 < 10 ^ 6 := by rw [hp6]; omega
  rw [list_lt_append_iff _ _ (by rw [zeroPadDigits_length, zeroPadDigits_length]),
    zeroPadDigits_lt_iff 3 hd₁ hd₂, list_lt_cons_iff,
    zeroPadDigits_lt_iff 6 hr₁ hr₂,
    nat_lt_iff_div_mod 1000000 (by norm_num) N₁ N₂]
  constructor
  · rintro (h | ⟨he, hc | ⟨_, _, hm⟩⟩)
    · exact Or.inl h
    · exact absurd hc (lt_irrefl '.')
    · exact Or.inr ⟨zeroPadDigits_inj 3 hd₁ hd₂ he, hm⟩
  · rintro (h | ⟨he, hm⟩)
    · exact Or.inl h
    · exact Or.inr ⟨by rw [he], Or.inr ⟨lt_irrefl '.', lt_irrefl '.', hm⟩⟩

/-- With Mathlib's `String` order in scope, `<` on strings is still the
core code-point-lexicographic order on the character lists. -/
theorem string_lt_iff_data_lt (s t : String) : s < t ↔ List.lt s.data t.data := by
  rw [String.lt_iff_toList_lt]
  show List.Lex (· < ·) s.data t.data ↔ List.lt s.data t.data
  exact (List.lt_iff_lex_lt _ _).symm

/-- `≤` on strings is the negated reverse lexicographic `<`. -/
theorem string_le_iff_not_data_lt (s t : String) : s ≤ t ↔ ¬ List.lt t.data s.data := by
  show ¬ t < s ↔ ¬ List.lt t.data s.data
  exact not_congr (string_lt_iff_data_lt t s)

/-- C7 (amended): on non-negative values whose half-up rounding at six
decimals stays below 1000 (the encodable range — above it `toFixed(6)` is
longer than 10 characters and `padStart` no longer pads), the encoding has
fixed length 10 and is *monotone*: `a ≤ b` implies
`indexNrToString a ≤ indexNrToString b` lexicographically; conversely a
lexicographic `≤` of encodings only bounds the six-decimal *roundings*,
`⌊a·10⁶ + ½⌋ ≤ ⌊b·10⁶ + ½⌋` — not `a ≤ b` itself, which fails for values
closer than the rounding step (see the counterexample).  The string range
selection is therefore equivalent to a distance-window test only up to
6-decimal rounding. -/
theorem C7_index_encoding_monotone (a b : ℚ) (ha : 0 ≤ a) (hb : 0 ≤ b)
    (ha2 : a * 1000000 + 1 / 2 < 1000000000)
    (hb2 : b * 1000000 + 1 / 2 < 1000000000) :
    (indexNrToString a).length = 10
    ∧ (a ≤ b → indexNrToString a ≤ indexNrToString b)
    ∧ (indexNrToString a ≤ indexNrToString b →
        ⌊a * 1000000 + 1 / 2⌋ ≤ ⌊b * 1000000 + 1 / 2⌋) := by
  have hupa : ⌊a * 1000000 + 1 / 2⌋ < 1000000000 := by
    apply Int.floor_lt.mpr
    push_cast
    exact ha2
  have hupb : ⌊b * 1000000 + 1 / 2⌋ < 1000000000 := by
    apply Int.floor_lt.mpr
    push_cast
    exact hb2
  have hgea : (0 : ℤ) ≤ ⌊a * 1000000 + 1 / 2⌋ := by
    apply Int.le_floor.mpr
    push_cast
    positivity
  have hgeb : (0 : ℤ) ≤ ⌊b * 1000000 + 1 / 2⌋ := by
    apply Int.le_floor.mpr
    push_cast
    positivity
  have hNa : (⌊a * 1000000 + 1 / 2⌋).toNat < 1000000000 := by omega
  have hNb : (⌊b * 1000000 + 1 / 2⌋).toNat < 1000000000 := by omega
  have hda := indexNrToString_data a ha hupa
  have hdb := indexNrToString_data b hb hupb
  refine ⟨?_, ?_, ?_⟩
  · show (indexNrToString a).data.length = 10
    rw [hda, List.length_append, List.length_cons, zeroPadDigits_length,
      zeroPadDigits_length]
  · intro hab
    have hfl : ⌊a * 1000000 + 1 / 2⌋ ≤ ⌊b * 1000000 + 1 / 2⌋ := by
      apply Int.floor_le_floor
      have : a * 1000000 ≤ b * 1000000 := by nlinarith
      linarith
    rw [string_le_iff_not_data_lt, hdb, hda, indexKey_lt_iff hNb hNa]
    omega
  · intro hle
    rw [string_le_iff_not_data_lt, hdb, hda, indexKey_lt_iff hNb hNa] at hle
    omega

/-- Witness for C7 at `a = 1`, `b = 2`. -/
theorem C7_index_encoding_monotone_witness :
    (0 : ℚ) ≤ 1 ∧ (1 : ℚ) * 1000000 + 1 / 2 < 1000000000
    ∧ ((indexNrToString 1).length = 10
        ∧ ((1 : ℚ) ≤ 2 → indexNrToString 1 ≤ indexNrToString 2)
        ∧ (indexNrToString 1 ≤ indexNrToString 2 →
            ⌊(1 : ℚ) * 1000000 + 1 / 2⌋ ≤ ⌊(2 : ℚ) * 1000000 + 1 / 2⌋)) :=
  ⟨by norm_num, by norm_num,
    C7_index_encoding_monotone 1 2 (by norm_num) (by norm_num) (by norm_num)
      (by norm_num)⟩

/-- C7 counterexample: the claim's "if and only if" fails right-to-left.
`10⁻⁷` and `0` both round to `0.000000`, so their encodings are equal
(hence lexicographically `≤` both ways), yet `10⁻⁷ ≤ 0` is false: the
encoding collapses values within a rounding step, so string comparison
does not reflect numeric comparison exactly. -/
theorem C7_counterexample :
    indexNrToString (1 / 10000000) = indexNrToString 0
    ∧ indexNrToString (1 / 10000000) ≤ indexNrToString 0
    ∧ ¬ ((1 : ℚ) / 10000000 ≤ 0) := by
  have h1 : toFixed6 (1 / 10000000 : ℚ) = fixedOfNat (0 : ℤ).toNat :=
    toFixed6_of_floor_eq (by norm_num) (by norm_num)
  have h0 : toFixed6 (0 : ℚ) = fixedOfNat (0 : ℤ).toNat :=
    toFixed6_of_floor_eq (by norm_num) (by norm_num)
  have he : indexNrToString (1 / 10000000) = indexNrToString 0 := by
    unfold indexNrToString
    rw [h1, h0]
  refine ⟨he, ?_, by norm_num⟩
  rw [he]

/-- Witness instantiation for C3 at a concrete search call. -/
theorem C3_search_postconditions_witness :
    (VectorDatabase.searchSimilarCore ratSqrt [] [witnessEntry] [1] 5
        (3 / 10) none).length ≤ 5
    ∧ List.Sorted VectorDatabase.simGE
        (VectorDatabase.searchSimilarCore ratSqrt [] [witnessEntry] [1] 5
          (3 / 10) none)
    ∧ ∀ r ∈ VectorDatabase.searchSimilarCore ratSqrt [] [witnessEntry] [1] 5
        (3 / 10) none,
        (3 / 10 : ℚ) ≤ r.similarity
        ∧ r.entry ∈ [witnessEntry]
        ∧ (∀ t, (none : Option VectorType) = some t →
            r.entry.metadata.type = t)
        ∧ r.similarity = VectorDatabase.cosineSimilarity ratSqrt [1]
            r.entry.embedding
        ∧ r.distance = VectorDatabase.euclideanDistance ratSqrt [1]
            r.entry.embedding :=
  C3_search_postconditions ratSqrt [] [witnessEntry] [1] 5 (3 / 10) none
